import Mathlib

/-!
Verification development for the PyShell command interpreter (`shell.py`).

The Python source is shallowly embedded: classes `Environment`, `Command`,
`Pipeline`, `Parser`, `Builtins`, `Executor` and the `Shell` loop become Lean
structures and executable functions.  OS effects (process spawning, `chdir`,
file reads, globbing) are supplied by an explicit `World` oracle; mutation of
the environment, printed output, spawned-process records and file-descriptor
bookkeeping are threaded through an explicit `ExecState`.  Python exceptions
are modelled with `Except PyExc`; `sys.exit` is the `systemExit` exception,
which the shell loop (unlike `except Exception`) does not catch.
-/

/-- The single quote character, used by the quote-aware scanners. -/
def squote : Char := Char.ofNat 39

/-- The backslash character. -/
def bslash : Char := Char.ofNat 92

/-- Python exceptions that the embedded code can raise. -/
inductive PyExc where
  | attributeError
  | valueError
  | osError
  | fileNotFound
  | indexError
  | nameError
  | recursionError
  | systemExit (code : Int)
  deriving DecidableEq, Repr

/-- Short rendering of an exception, standing in for Python's `str(e)`. -/
def PyExc.msg : PyExc → String
  | .attributeError => "AttributeError"
  | .valueError => "ValueError"
  | .osError => "OSError"
  | .fileNotFound => "FileNotFoundError"
  | .indexError => "IndexError"
  | .nameError => "NameError"
  | .recursionError => "RecursionError"
  | .systemExit _ => "SystemExit"

/-- Update-or-append on an association list: the semantics of `d[k] = v` for a
Python dict (insertion order kept, existing key overwritten in place). -/
def setAssoc : List (String × String) → String → String → List (String × String)
  | [], k, v => [(k, v)]
  | (k', v') :: rest, k, v =>
      if k' = k then (k, v) :: rest else (k', v') :: setAssoc rest k v

/-- Lookup on an association list: the semantics of `d.get(k)`. -/
def getAssoc : List (String × String) → String → Option String
  | [], _ => none
  | (k', v') :: rest, k => if k' = k then some v' else getAssoc rest k

/-- Delete a key from an association list: the semantics of `del d[k]`. -/
def delAssoc : List (String × String) → String → List (String × String)
  | [], _ => []
  | (k', v') :: rest, k => if k' = k then rest else (k', v') :: delAssoc rest k

/-- Python's whitespace characters, as used by `str.strip()`. -/
def isPyWs (c : Char) : Bool :=
  c = ' ' || c = '\t' || c = '\n' || c = '\r' || c = '\x0b' || c = '\x0c'

/-- Python `str.strip()`: remove leading and trailing whitespace. -/
def pyStrip (s : String) : String :=
  String.mk (((s.data.dropWhile isPyWs).reverse.dropWhile isPyWs).reverse)

/-- Python `str(i)` for an integer. -/
def pyStrInt (i : Int) : String :=
  if i < 0 then "-" ++ Nat.repr i.natAbs else Nat.repr i.natAbs

/-- ASCII decimal digit test. -/
def isDigitCh (c : Char) : Bool := '0' ≤ c && c ≤ '9'

/-- Digit runs possibly separated by single underscores, the shape accepted
after the sign by Python's `int(str)`: `digit+ ( _ digit+ )*`. -/
def digitsUnd : List Char → Bool
  | [] => true
  | '_' :: c :: rest => isDigitCh c && digitsUnd rest
  | '_' :: [] => false
  | c :: rest => isDigitCh c && digitsUnd rest

/-- The digits of `int(str)` must start with a plain digit. -/
def digitsOk : List Char → Bool
  | [] => false
  | c :: rest => isDigitCh c && digitsUnd rest

/-- Numeric value of a digit/underscore run (underscores skipped). -/
def digitsVal : List Char → Nat → Nat
  | [], acc => acc
  | '_' :: rest, acc => digitsVal rest acc
  | c :: rest, acc => digitsVal rest (acc * 10 + (c.toNat - '0'.toNat))

/-- Python's `int(s)` on ASCII text: optional surrounding whitespace, an
optional sign, then decimal digits with optional single interior underscores.
`none` models the `ValueError` that `int` raises otherwise. -/
def pyInt (s : String) : Option Int :=
  let body := (s.data.dropWhile isPyWs).reverse.dropWhile isPyWs |>.reverse
  match body with
  | '-' :: digits => if digitsOk digits then some (-(digitsVal digits 0 : Int)) else none
  | '+' :: digits => if digitsOk digits then some ((digitsVal digits 0 : Int)) else none
  | digits => if digitsOk digits then some ((digitsVal digits 0 : Int)) else none

/-- Insert a pair into a list sorted by key (`<` on strings). -/
def insertPair (p : String × String) : List (String × String) → List (String × String)
  | [] => [p]
  | q :: rest => if q.1 < p.1 then q :: insertPair p rest else p :: q :: rest

/-- Sort an association list by key: the semantics of `sorted(d.items())`
for a dict (whose keys are unique). -/
def sortPairs (l : List (String × String)) : List (String × String) :=
  l.foldr insertPair []

/-- `[A-Za-z_]`, the first character of a variable name. -/
def isIdentStart (c : Char) : Bool := c.isAlpha || c = '_'

/-- `[A-Za-z0-9_]`, a continuation character of a variable name. -/
def isIdentChar (c : Char) : Bool := c.isAlpha || c.isDigit || c = '_'

/-- A nonempty run matching `[A-Za-z_][A-Za-z0-9_]*`. -/
def validName : List Char → Bool
  | [] => false
  | c :: rest => isIdentStart c && rest.all isIdentChar

/-- `dropWhile` never lengthens a list (used for termination of scanners). -/
theorem dropWhile_length_le (p : Char → Bool) :
    ∀ l : List Char, (l.dropWhile p).length ≤ l.length := by
  intro l
  induction l with
  | nil => simp [List.dropWhile]
  | cons c rest ih =>
    by_cases h : p c = true
    · simp [List.dropWhile, h]; omega
    · simp [List.dropWhile, h]

-- ============ DATA MODEL ============

/-- `Environment`: variable store, alias table, history (shell.py lines
30-34).  Variables mirror `os.environ`; both are one store here. -/
structure Environment where
  «variables» : List (String × String)
  aliases : List (String × String)
  history : List String
  deriving DecidableEq, Repr

/-- `Environment.set` (shell.py lines 36-38). -/
def Environment.set (env : Environment) (key value : String) : Environment :=
  { env with «variables» := setAssoc env.variables key value }

/-- `Environment.get` with its `""` default (shell.py lines 40-41). -/
def Environment.get (env : Environment) (key : String) (default : String := "") : String :=
  (getAssoc env.variables key).getD default

/-- `Environment.add_alias` (shell.py lines 60-61). -/
def Environment.add_alias (env : Environment) (name command : String) : Environment :=
  { env with aliases := setAssoc env.aliases name command }

/-- `Command` (shell.py lines 67-73). -/
structure Command where
  args : List String
  input_file : Option String
  output_file : Option String
  append_output : Bool
  background : Bool
  deriving DecidableEq, Repr

/-- A command with only arguments set, the fields' defaults otherwise. -/
def mkCmd (args : List String) : Command :=
  { args := args, input_file := none, output_file := none,
    append_output := false, background := false }

/-- `Pipeline` (shell.py lines 75-77). -/
structure Pipeline where
  commands : List Command
  deriving DecidableEq, Repr

-- ============ VARIABLE EXPANSION ============

/-- The scanning semantics of
`re.sub(r'\$\x7b([^\x7d]+)\x7d|\$([A-Za-z_][A-Za-z0-9_]*)', replace_var, text)`
from `Environment.expand` (shell.py lines 43-51): positions are tried left to
right; at a position, the braced alternative `$\x7bCONTENT\x7d` (CONTENT any
nonempty brace-free run) is tried before the bare `$NAME` alternative
(maximal-munch identifier); a matched variable is replaced by its value when
defined and by the whole match (i.e. left unchanged) when undefined, and
scanning resumes after the match without rescanning the replacement. -/
def expandChars (vars : List (String × String)) : List Char → List Char
  | [] => []
  | '$' :: '{' :: rest =>
      let content := rest.takeWhile (fun c => c ≠ '}')
      match h : rest.dropWhile (fun c => c ≠ '}') with
      | '}' :: rest3 =>
          if content.isEmpty then
            '$' :: expandChars vars ('{' :: rest)
          else
            match getAssoc vars (String.mk content) with
            | some v => v.data ++ expandChars vars rest3
            | none => '$' :: '{' :: content ++ '}' :: expandChars vars rest3
      | _ => '$' :: expandChars vars ('{' :: rest)
  | '$' :: c :: rest =>
      if isIdentStart c then
        let name := c :: rest.takeWhile isIdentChar
        let after := rest.dropWhile isIdentChar
        match getAssoc vars (String.mk name) with
        | some v => v.data ++ expandChars vars after
        | none => '$' :: name ++ expandChars vars after
      else
        '$' :: expandChars vars (c :: rest)
  | c :: rest => c :: expandChars vars rest
termination_by l => l.length
decreasing_by
  all_goals simp_wf
  all_goals first
    | omega
    | (have hlen : (rest.dropWhile (fun c => c ≠ '}')).length = rest3.length + 1 := by
         rw [h]; simp
       have hle := dropWhile_length_le (fun c => c ≠ '}') rest
       omega)
    | (have hle := dropWhile_length_le isIdentChar rest
       omega)

/-- `Environment.expand` (shell.py lines 43-51). -/
def Environment.expand (env : Environment) (text : String) : String :=
  String.mk (expandChars env.variables text.data)

/-- The spec's description of `expand`, for comparison with the code: it
"replaces every occurrence of `$NAME` or `$\x7bNAME\x7d` (NAME matches
`[A-Za-z_][A-Za-z0-9_]*`)", so here the braced alternative only matches when
its content is a valid NAME; otherwise the position does not match and
scanning continues with the next character.  Everything else (left-to-right
scanning, maximal munch, defined/undefined handling) is as in the code. -/
def expandSpecChars (vars : List (String × String)) : List Char → List Char
  | [] => []
  | '$' :: '{' :: rest =>
      let content := rest.takeWhile (fun c => c ≠ '}')
      match h : rest.dropWhile (fun c => c ≠ '}') with
      | '}' :: rest3 =>
          if validName content then
            match getAssoc vars (String.mk content) with
            | some v => v.data ++ expandSpecChars vars rest3
            | none => '$' :: '{' :: content ++ '}' :: expandSpecChars vars rest3
          else
            '$' :: expandSpecChars vars ('{' :: rest)
      | _ => '$' :: expandSpecChars vars ('{' :: rest)
  | '$' :: c :: rest =>
      if isIdentStart c then
        let name := c :: rest.takeWhile isIdentChar
        let after := rest.dropWhile isIdentChar
        match getAssoc vars (String.mk name) with
        | some v => v.data ++ expandSpecChars vars after
        | none => '$' :: name ++ expandSpecChars vars after
      else
        '$' :: expandSpecChars vars (c :: rest)
  | c :: rest => c :: expandSpecChars vars rest
termination_by l => l.length
decreasing_by
  all_goals simp_wf
  all_goals first
    | omega
    | (have hlen : (rest.dropWhile (fun c => c ≠ '}')).length = rest3.length + 1 := by
         rw [h]; simp
       have hle := dropWhile_length_le (fun c => c ≠ '}') rest
       omega)
    | (have hle := dropWhile_length_le isIdentChar rest
       omega)

/-- String-level version of `expandSpecChars`. -/
def expandSpec (env : Environment) (text : String) : String :=
  String.mk (expandSpecChars env.variables text.data)

/-- Head condition of `bracesOk`: when the position starts a braced
candidate `$\x7b...`, its content up to the first `\x7d` must be a valid
variable name, and that closing `\x7d` must exist. -/
def bracesHeadOk (c : Char) (rest : List Char) : Bool :=
  if c = '$' then
    match rest with
    | '{' :: rest2 =>
        validName (rest2.takeWhile (fun x => x ≠ '}')) &&
        (match rest2.dropWhile (fun x => x ≠ '}') with
         | '}' :: _ => true
         | _ => false)
    | _ => true
  else true

/-- Texts on which every braced candidate `$\x7b...` opens a valid variable
name closed by `\x7d`.  On this class the code's braced alternative and the
spec's agree. -/
def bracesOk : List Char → Bool
  | [] => true
  | c :: rest => bracesHeadOk c rest && bracesOk rest

-- ============ WORLD (OS ORACLE) ============

/-- Outcome of `subprocess.Popen` for a given argv. -/
inductive SpawnOutcome where
  | notFound
  | otherError
  | ok (exitCode : Int)
  deriving DecidableEq, Repr

/-- Outcome of `os.chdir`. -/
inductive ChdirOutcome where
  | ok (newCwd : String)
  | notFound
  | permissionDenied
  deriving DecidableEq, Repr

/-- The OS oracle: fixed answers for the process- and filesystem-level
primitives the shell consumes (spec section 2 treats these as external
collaborators). -/
structure World where
  spawn : List String → SpawnOutcome
  chdir : String → String → ChdirOutcome
  readFile : String → Option (List String)
  glob : String → List String
  homeDir : String

/-- `Environment.expand_tilde` (shell.py lines 53-58): a leading `~` becomes
`HOME` (defaulting to `Path.home()`, here the world's home directory). -/
def Environment.expand_tilde (env : Environment) (w : World) (path : String) : String :=
  if path.data.take 1 = ['~'] then
    ((getAssoc env.variables "HOME").getD w.homeDir) ++ String.mk (path.data.drop 1)
  else path

-- ============ PARSER ============

/-- The quote-aware delimiter scanner shared by `Parser._split_by_semicolon`
(shell.py lines 95-121) and `Parser._split_by_pipe` (lines 136-162): a `"` or
a `'` toggles an in-quotes mode (closed only by the same character) in which
the delimiter is not recognised; the trailing chunk is kept as-is, even with
its quote unterminated.  Arguments: delimiter, remaining characters, current
chunk (reversed), in-quotes flag, pending quote character. -/
def Parser.splitScan (delim : Char) :
    List Char → List Char → Bool → Option Char → List String
  | [], cur, _, _ => if cur.isEmpty then [] else [String.mk cur.reverse]
  | ch :: rest, cur, inQ, qc =>
      if (ch = '"' ∨ ch = squote) ∧ ¬ inQ then
        Parser.splitScan delim rest (ch :: cur) true (some ch)
      else if some ch = qc ∧ inQ then
        Parser.splitScan delim rest (ch :: cur) false none
      else if ch = delim ∧ ¬ inQ then
        String.mk cur.reverse :: Parser.splitScan delim rest [] inQ qc
      else
        Parser.splitScan delim rest (ch :: cur) inQ qc

/-- `Parser._split_by_semicolon` (shell.py lines 95-121). -/
def Parser._split_by_semicolon (text : String) : List String :=
  Parser.splitScan ';' text.data [] false none

/-- `Parser._split_by_pipe` (shell.py lines 136-162). -/
def Parser._split_by_pipe (text : String) : List String :=
  Parser.splitScan '|' text.data [] false none

-- ============ SHLEX ============

/-- Whitespace as `shlex` sees it. -/
def isShlexWs (c : Char) : Bool := c = ' ' || c = '\t' || c = '\r' || c = '\n'

/-- Scanner state of `shlex.split` in POSIX mode: outside quotes (with the
token accumulated so far, `none` when no token has started), inside single
quotes, inside double quotes. -/
inductive ShlexSt where
  | norm (tok : Option (List Char))
  | sq (tok : List Char)
  | dq (tok : List Char)

/-- The POSIX-mode `shlex.split` state machine used by `Parser._parse_command`
(shell.py line 168) and the alias substitution (line 216): whitespace-split
tokens, `'` and `"` group without nesting, backslash escapes the next
character outside quotes and (only before `"` or `\`) inside double quotes;
an unterminated quote or a trailing backslash raises `ValueError`. -/
def shlexAux : List Char → ShlexSt → Except PyExc (List String)
  | [], .norm none => .ok []
  | [], .norm (some t) => .ok [String.mk t.reverse]
  | [], .sq _ => .error .valueError
  | [], .dq _ => .error .valueError
  | c :: rest, .norm tok =>
      if isShlexWs c then
        match tok with
        | none => shlexAux rest (.norm none)
        | some t => (shlexAux rest (.norm none)).map (fun xs => String.mk t.reverse :: xs)
      else if c = squote then shlexAux rest (.sq (tok.getD []))
      else if c = '"' then shlexAux rest (.dq (tok.getD []))
      else if c = bslash then
        match rest with
        | [] => .error .valueError
        | c2 :: rest2 => shlexAux rest2 (.norm (some (c2 :: tok.getD [])))
      else shlexAux rest (.norm (some (c :: tok.getD [])))
  | c :: rest, .sq t =>
      if c = squote then shlexAux rest (.norm (some t))
      else shlexAux rest (.sq (c :: t))
  | c :: rest, .dq t =>
      if c = '"' then shlexAux rest (.norm (some t))
      else if c = bslash then
        match rest with
        | [] => .error .valueError
        | c2 :: rest2 =>
            if c2 = '"' ∨ c2 = bslash then shlexAux rest2 (.dq (c2 :: t))
            else shlexAux rest2 (.dq (c2 :: bslash :: t))
      else shlexAux rest (.dq (c :: t))

/-- `shlex.split(text)` (POSIX mode), as called by the parser. -/
def shlexSplit (text : String) : Except PyExc (List String) :=
  shlexAux text.data (.norm none)

-- ============ COMMAND PARSING ============

/-- Does the expanded token contain a glob character (`*`, `?`, `[`)? -/
def containsGlobChar (s : String) : Bool :=
  s.data.any (fun c => c = '*' || c = '?' || c = '[')

/-- The token walk of `Parser._parse_command` (shell.py lines 170-211): `<`,
`>`, `>>` consume the following token as a redirection target (expanded for
variables and tilde), and are dropped silently when no token follows; a `&`
that is the last token sets the background flag; every other token is
variable-expanded, tilde-expanded and then glob-expanded (an unmatched glob
keeps the literal token). -/
def Parser.walkTokens (env : Environment) (w : World) :
    List String → Command → Command
  | [], c => c
  | "<" :: next :: rest, c =>
      Parser.walkTokens env w rest
        { c with input_file := some (env.expand_tilde w (env.expand next)) }
  | ["<"], c => c
  | ">" :: next :: rest, c =>
      Parser.walkTokens env w rest
        { c with output_file := some (env.expand_tilde w (env.expand next)),
                 append_output := false }
  | [">"], c => c
  | ">>" :: next :: rest, c =>
      Parser.walkTokens env w rest
        { c with output_file := some (env.expand_tilde w (env.expand next)),
                 append_output := true }
  | [">>"], c => c
  | ["&"], c => { c with background := true }
  | tok :: rest, c =>
      let e1 := env.expand tok
      let e2 := env.expand_tilde w e1
      let args' :=
        if containsGlobChar e2 then
          match w.glob e2 with
          | [] => c.args ++ [e2]
          | ms => c.args ++ ms
        else c.args ++ [e2]
      Parser.walkTokens env w rest { c with args := args' }

/-- `Parser._parse_command` (shell.py lines 164-219): shlex-tokenize (which
may raise `ValueError`), walk the tokens, then substitute a single-level
alias for `argv[0]` (the alias text is itself shlex-tokenized, which may also
raise). -/
def Parser._parse_command (text : String) (env : Environment) (w : World) :
    Except PyExc Command := do
  let tokens ← shlexSplit text
  let cmd := Parser.walkTokens env w tokens (mkCmd [])
  match cmd.args with
  | name :: restArgs =>
      match getAssoc env.aliases name with
      | some aliasCmd => do
          let aliasTokens ← shlexSplit aliasCmd
          pure { cmd with args := aliasTokens ++ restArgs }
      | none => pure cmd
  | [] => pure cmd

/-- `Parser._parse_pipeline` (shell.py lines 123-134): split on `|` with the
quote-aware scanner and parse every chunk (empty chunks included). -/
def Parser._parse_pipeline (text : String) (env : Environment) (w : World) :
    Except PyExc Pipeline := do
  let cmds ← (Parser._split_by_pipe text).mapM
    (fun t => Parser._parse_command t env w)
  pure ⟨cmds⟩

/-- The statement loop of `Parser.parse` (shell.py lines 86-93): strip each
semicolon-separated statement, parse the nonempty ones. -/
def Parser.parseStmts (env : Environment) (w : World) :
    List String → Except PyExc (List Pipeline)
  | [] => .ok []
  | stmt :: rest =>
      let s := pyStrip stmt
      if s = "" then Parser.parseStmts env w rest
      else
        match Parser._parse_pipeline s env w with
        | .error e => .error e
        | .ok pl =>
            match Parser.parseStmts env w rest with
            | .error e => .error e
            | .ok pls => .ok (pl :: pls)

/-- `Parser.parse` (shell.py lines 81-93). -/
def Parser.parse (input_line : String) (env : Environment) (w : World) :
    Except PyExc (List Pipeline) :=
  Parser.parseStmts env w (Parser._split_by_semicolon input_line)

-- ============ EXECUTION STATE ============

/-- How a spawned process's standard error was set up: `subprocess.PIPE`
(captured into a pipe the shell never reads) or `None` (inherited). -/
inductive StderrSpec where
  | piped
  | inherited
  deriving DecidableEq, Repr

/-- Record of one successful `subprocess.Popen` call. -/
structure SpawnEvent where
  argv : List String
  stdinFd : Option Nat
  stdoutFd : Option Nat
  stderr : StderrSpec
  background : Bool
  pid : Nat
  deriving DecidableEq, Repr

/-- Observable interpreter state threaded through execution: the environment
object, the process working directory, printed stdout/stderr lines, the
spawned-process log, and file-descriptor bookkeeping (`nextFd` is the next
descriptor the OS hands out; `openFds` the parent's currently open explicit
descriptors; `fdOpens`/`fdCloses` the event logs of `os.pipe`/`open` and
successful `os.close` calls). -/
structure ExecState where
  env : Environment
  cwd : String
  outLines : List String
  errLines : List String
  spawns : List SpawnEvent
  nextFd : Nat
  openFds : List Nat
  fdOpens : List Nat
  fdCloses : List Nat
  nextPid : Nat
  deriving DecidableEq, Repr

/-- Print a line to standard output. -/
def ExecState.addOut (st : ExecState) (s : String) : ExecState :=
  { st with outLines := st.outLines ++ [s] }

/-- Print a line to standard error. -/
def ExecState.addErr (st : ExecState) (s : String) : ExecState :=
  { st with errLines := st.errLines ++ [s] }

/-- `env.set` lifted to the state. -/
def ExecState.setVar (st : ExecState) (k v : String) : ExecState :=
  { st with env := st.env.set k v }

/-- `env.history.append(line)`. -/
def ExecState.addHistory (st : ExecState) (line : String) : ExecState :=
  { st with env := { st.env with history := st.env.history ++ [line] } }

/-- Allocate one fresh file descriptor (an `open(...)` call). -/
def ExecState.allocFd (st : ExecState) : Nat × ExecState :=
  (st.nextFd,
   { st with nextFd := st.nextFd + 1,
             openFds := st.openFds ++ [st.nextFd],
             fdOpens := st.fdOpens ++ [st.nextFd] })

/-- `os.pipe()`: two fresh descriptors (read end, write end). -/
def ExecState.allocPipe (st : ExecState) : (Nat × Nat) × ExecState :=
  ((st.nextFd, st.nextFd + 1),
   { st with nextFd := st.nextFd + 2,
             openFds := st.openFds ++ [st.nextFd, st.nextFd + 1],
             fdOpens := st.fdOpens ++ [st.nextFd, st.nextFd + 1] })

/-- `os.close(fd)`: raises `OSError` on a descriptor that is not open (the
state is returned alongside, unchanged in the error case). -/
def ExecState.closeFd (st : ExecState) (fd : Nat) : (Except PyExc Unit) × ExecState :=
  if fd ∈ st.openFds then
    (.ok (), { st with openFds := st.openFds.erase fd, fdCloses := st.fdCloses ++ [fd] })
  else (.error .osError, st)

-- ============ BUILT-IN COMMANDS ============

/-- `Builtins.cmd_cd` (shell.py lines 249-263). -/
def Builtins.cmd_cd (cmd : Command) (st : ExecState) (w : World) :
    (Except PyExc Int) × ExecState :=
  let path := match cmd.args with
    | _ :: p :: _ => p
    | _ => st.env.get "HOME"
  let path := st.env.expand_tilde w path
  match w.chdir st.cwd path with
  | .ok newCwd => (.ok 0, { st.setVar "PWD" newCwd with cwd := newCwd })
  | .notFound => (.ok 1, st.addErr ("cd: " ++ path ++ ": No such file or directory"))
  | .permissionDenied => (.ok 1, st.addErr ("cd: " ++ path ++ ": Permission denied"))

/-- `Builtins.cmd_pwd` (shell.py lines 265-268). -/
def Builtins.cmd_pwd (_cmd : Command) (st : ExecState) (_w : World) :
    (Except PyExc Int) × ExecState :=
  (.ok 0, st.addOut st.cwd)

/-- `Builtins.cmd_exit` (shell.py lines 270-273): `int(cmd.args[1])` may
raise `ValueError`; otherwise `sys.exit(code)` raises `SystemExit`. -/
def Builtins.cmd_exit (cmd : Command) (st : ExecState) (_w : World) :
    (Except PyExc Int) × ExecState :=
  match cmd.args with
  | _ :: a :: _ =>
      match pyInt a with
      | some n => (.error (.systemExit n), st)
      | none => (.error .valueError, st)
  | _ => (.error (.systemExit 0), st)

/-- `key, value = arg.split('=', 1)`. -/
def pySplitEq (s : String) : String × String :=
  (String.mk (s.data.takeWhile (fun c => c ≠ '=')),
   String.mk ((s.data.dropWhile (fun c => c ≠ '=')).drop 1))

/-- Print `KEY=VALUE` lines for the variables, sorted by name. -/
def ExecState.printVarsSorted (st : ExecState) : ExecState :=
  (sortPairs st.env.variables).foldl
    (fun s p => s.addOut (p.1 ++ "=" ++ p.2)) st

/-- `Builtins.cmd_export` (shell.py lines 275-286). -/
def Builtins.cmd_export (cmd : Command) (st : ExecState) (_w : World) :
    (Except PyExc Int) × ExecState :=
  if cmd.args.length < 2 then
    (.ok 0, st.printVarsSorted)
  else
    (.ok 0, (cmd.args.drop 1).foldl
      (fun s arg =>
        if arg.data.any (fun c => c = '=') then
          let kv := pySplitEq arg
          s.setVar kv.1 kv.2
        else s) st)

/-- `Builtins.cmd_echo` (shell.py lines 288-292). -/
def Builtins.cmd_echo (cmd : Command) (st : ExecState) (_w : World) :
    (Except PyExc Int) × ExecState :=
  let output := String.intercalate " " (cmd.args.drop 1)
  (.ok 0, st.addOut (st.env.expand output))

/-- `Builtins.cmd_history` (shell.py lines 294-298). -/
def Builtins.cmd_history (_cmd : Command) (st : ExecState) (_w : World) :
    (Except PyExc Int) × ExecState :=
  (.ok 0, st.env.history.enum.foldl
    (fun s p => s.addOut ("  " ++ Nat.repr (p.1 + 1) ++ "  " ++ p.2)) st)

/-- Quote characters stripped from alias definitions. -/
def isQuoteCh (c : Char) : Bool := c = squote || c = '"'

/-- Python `command.strip('\x27"')`. -/
def pyStripQuotes (s : String) : String :=
  String.mk (((s.data.dropWhile isQuoteCh).reverse.dropWhile isQuoteCh).reverse)

/-- `Builtins.cmd_alias` (shell.py lines 300-312). -/
def Builtins.cmd_alias (cmd : Command) (st : ExecState) (_w : World) :
    (Except PyExc Int) × ExecState :=
  if cmd.args.length < 2 then
    (.ok 0, (sortPairs st.env.aliases).foldl
      (fun s p => s.addOut
        ("alias " ++ p.1 ++ "=" ++ String.singleton squote ++ p.2 ++ String.singleton squote)) st)
  else
    (.ok 0, (cmd.args.drop 1).foldl
      (fun s arg =>
        if arg.data.any (fun c => c = '=') then
          let kv := pySplitEq arg
          { s with env := s.env.add_alias kv.1 (pyStripQuotes kv.2) }
        else s) st)

/-- `Builtins.cmd_unalias` (shell.py lines 314-319). -/
def Builtins.cmd_unalias (cmd : Command) (st : ExecState) (_w : World) :
    (Except PyExc Int) × ExecState :=
  (.ok 0, (cmd.args.drop 1).foldl
    (fun s name => { s with env := { s.env with aliases := delAssoc s.env.aliases name } }) st)

/-- `Builtins.cmd_env` (shell.py lines 321-325). -/
def Builtins.cmd_env (_cmd : Command) (st : ExecState) (_w : World) :
    (Except PyExc Int) × ExecState :=
  (.ok 0, st.printVarsSorted)

/-- The inner pipeline loop of `cmd_source` (shell.py lines 340-341):
execute each parsed pipeline, discarding its status; exceptions propagate. -/
def Builtins.sourceRunPls (execPl : Pipeline → ExecState → (Except PyExc Int) × ExecState) :
    List Pipeline → ExecState → (Except PyExc Unit) × ExecState
  | [], st => (.ok (), st)
  | pl :: rest, st =>
      match execPl pl st with
      | (.ok _, st') => Builtins.sourceRunPls execPl rest st'
      | (.error e, st') => (.error e, st')

/-- The line loop of `cmd_source` (shell.py lines 334-341): strip each line,
skip blank and `#`-prefixed lines, parse and execute the rest. -/
def Builtins.sourceLines (execPl : Pipeline → ExecState → (Except PyExc Int) × ExecState)
    (w : World) : List String → ExecState → (Except PyExc Int) × ExecState
  | [], st => (.ok 0, st)
  | line :: rest, st =>
      let l := pyStrip line
      if l = "" ∨ l.data.take 1 = ['#'] then Builtins.sourceLines execPl w rest st
      else
        match Parser.parse l st.env w with
        | .error e => (.error e, st)
        | .ok pls =>
            match Builtins.sourceRunPls execPl pls st with
            | (.ok _, st') => Builtins.sourceLines execPl w rest st'
            | (.error e, st') => (.error e, st')

/-- `Builtins.cmd_source` (shell.py lines 327-345). -/
def Builtins.cmd_source (execPl : Pipeline → ExecState → (Except PyExc Int) × ExecState)
    (cmd : Command) (st : ExecState) (w : World) : (Except PyExc Int) × ExecState :=
  match cmd.args with
  | _ :: fname :: _ =>
      match w.readFile fname with
      | some lines => Builtins.sourceLines execPl w lines st
      | none => (.ok 1, st.addErr ("source: " ++ fname ++ ": No such file"))
  | _ => (.ok 1, st.addErr "source: missing file argument")

/-- The builtin names of the dispatch table (shell.py lines 231-242). -/
def builtinNames : List String :=
  ["cd", "pwd", "exit", "export", "echo", "history", "alias", "unalias", "env", "source"]

/-- `Builtins.execute` (shell.py lines 223-247): dispatch on `argv[0]`,
`none` when the command is not a builtin. -/
def Builtins.execute (execPl : Pipeline → ExecState → (Except PyExc Int) × ExecState)
    (cmd : Command) (st : ExecState) (w : World) :
    (Option (Except PyExc Int)) × ExecState :=
  match cmd.args with
  | [] => (none, st)
  | name :: _ =>
      if name = "cd" then let r := Builtins.cmd_cd cmd st w; (some r.1, r.2)
      else if name = "pwd" then let r := Builtins.cmd_pwd cmd st w; (some r.1, r.2)
      else if name = "exit" then let r := Builtins.cmd_exit cmd st w; (some r.1, r.2)
      else if name = "export" then let r := Builtins.cmd_export cmd st w; (some r.1, r.2)
      else if name = "echo" then let r := Builtins.cmd_echo cmd st w; (some r.1, r.2)
      else if name = "history" then let r := Builtins.cmd_history cmd st w; (some r.1, r.2)
      else if name = "alias" then let r := Builtins.cmd_alias cmd st w; (some r.1, r.2)
      else if name = "unalias" then let r := Builtins.cmd_unalias cmd st w; (some r.1, r.2)
      else if name = "env" then let r := Builtins.cmd_env cmd st w; (some r.1, r.2)
      else if name = "source" then let r := Builtins.cmd_source execPl cmd st w; (some r.1, r.2)
      else (none, st)

-- ============ EXECUTOR ============

/-- The value held by the Python locals `stdin`/`stdout` in
`execute_pipeline`: `None`, an opened file object, or a raw pipe descriptor
(an `int`). -/
inductive FdVal where
  | noneV
  | file (fd : Nat)
  | num (fd : Nat)
  deriving DecidableEq, Repr

/-- `stdin.fileno() if stdin else None` (shell.py lines 391-392): `None`
stays `None`, a file object yields its descriptor, a *truthy* raw `int` has
no `fileno` attribute and raises `AttributeError` (the descriptor `0` is
falsy, so it becomes `None`). -/
def fdOf : FdVal → Except PyExc (Option Nat)
  | .noneV => .ok none
  | .file fd => .ok (some fd)
  | .num fd => if fd = 0 then .ok none else .error .attributeError

/-- `if stdin and isinstance(stdin, int): os.close(stdin)` (shell.py lines
404-407): close only truthy raw integer descriptors. -/
def closeIfInt (v : FdVal) (st : ExecState) : (Except PyExc Unit) × ExecState :=
  match v with
  | .num fd => if fd = 0 then (.ok (), st) else st.closeFd fd
  | _ => (.ok (), st)

/-- The per-iteration locals of the stage loop: the previous stage's pipe
and the list of spawned processes as (pid, eventual exit code). -/
structure LoopCtx where
  prevPipe : Option (Nat × Nat)
  processes : List (Nat × Int)
  deriving DecidableEq, Repr

/-- Is `cmd.input_file` truthy (set and nonempty)? -/
def inputTruthy (cmd : Command) : Bool :=
  match cmd.input_file with
  | some f => f ≠ ""
  | none => false

/-- Is `cmd.output_file` truthy (set and nonempty)? -/
def outputTruthy (cmd : Command) : Bool :=
  match cmd.output_file with
  | some f => f ≠ ""
  | none => false

/-- One iteration of the stage loop of `Executor.execute_pipeline` (shell.py
lines 365-421) for stage `i` of `n`: skip an empty argv; create a pipe when
not last; pick stdin (input file when `i = 0`, else previous pipe's read
end) and stdout (output file when last, else the new pipe's write end);
convert both through `.fileno()`; spawn; close raw descriptors just handed
over; close the previous pipe's read end; hand the new pipe to the next
iteration.  `.ok none` means fall through to the next stage, `.ok (some s)`
an early `return s`, `.error` a propagating exception. -/
def Executor.stagePipe (n i : Nat) (st : ExecState) :
    Option (Nat × Nat) × ExecState :=
  if i < n - 1 then
    let pr := st.allocPipe
    (some pr.1, pr.2)
  else (none, st)

/-- Stdin selection (shell.py lines 375-380): an opened input file for a
truthy `input_file` at stage 0 (`open` raising `FileNotFoundError` when the
file does not exist), else the previous pipe's read end, else inherited. -/
def Executor.stageStdin (w : World) (i : Nat) (cmd : Command)
    (prevPipe : Option (Nat × Nat)) (st : ExecState) :
    (Except PyExc FdVal) × ExecState :=
  if i = 0 ∧ inputTruthy cmd then
    match w.readFile ((cmd.input_file).getD "") with
    | none => (.error .fileNotFound, st)
    | some _ => let a := st.allocFd; (.ok (.file a.1), a.2)
  else
    match prevPipe with
    | some pp => (.ok (.num pp.1), st)
    | none => (.ok .noneV, st)

/-- Stdout selection (shell.py lines 382-388): an opened output file for a
truthy `output_file` at the last stage, else the new pipe's write end, else
inherited. -/
def Executor.stageStdout (n i : Nat) (cmd : Command)
    (currPipe : Option (Nat × Nat)) (st : ExecState) : FdVal × ExecState :=
  if i = n - 1 ∧ outputTruthy cmd then
    let a := st.allocFd
    (.file a.1, a.2)
  else
    match currPipe with
    | some cp => (.num cp.2, st)
    | none => (.noneV, st)

/-- The `try` block (shell.py lines 394-414): spawn the process and close,
in the parent, raw descriptors just handed over; `FileNotFoundError` from
`Popen` reports "command not found" and returns 127, any other exception in
the block (a spawn failure, an `OSError` from `os.close`) reports
"Error executing ..." and returns 1.  `.ok none` falls through. -/
def Executor.stageTry (w : World) (cmd : Command) (a0 : String)
    (stdinV stdoutV : FdVal) (stdin_fd stdout_fd : Option Nat)
    (st : ExecState) (ctx : LoopCtx) :
    (Except PyExc (Option Int)) × ExecState × LoopCtx :=
  match w.spawn cmd.args with
  | .notFound =>
      (.ok (some 127), st.addErr (a0 ++ ": command not found"), ctx)
  | .otherError =>
      (.ok (some 1), st.addErr ("Error executing " ++ a0 ++ ": SpawnError"), ctx)
  | .ok code =>
      let pid := st.nextPid
      let ev : SpawnEvent :=
        { argv := cmd.args, stdinFd := stdin_fd, stdoutFd := stdout_fd,
          stderr := if cmd.background then .inherited else .piped,
          background := cmd.background, pid := pid }
      let st4 : ExecState := { st with nextPid := pid + 1, spawns := st.spawns ++ [ev] }
      let ctx1 : LoopCtx := { ctx with processes := ctx.processes ++ [(pid, code)] }
      let c1 := closeIfInt stdinV st4
      match c1.1 with
      | .error _ =>
          (.ok (some 1), c1.2.addErr ("Error executing " ++ a0 ++ ": OSError"), ctx1)
      | .ok _ =>
          let c2 := closeIfInt stdoutV c1.2
          match c2.1 with
          | .error _ =>
              (.ok (some 1), c2.2.addErr ("Error executing " ++ a0 ++ ": OSError"), ctx1)
          | .ok _ => (.ok none, c2.2, ctx1)

def Executor.stageStep (w : World) (n : Nat) (i : Nat) (cmd : Command)
    (st : ExecState) (ctx : LoopCtx) :
    (Except PyExc (Option Int)) × ExecState × LoopCtx :=
  match cmd.args with
  | [] => (.ok none, st, ctx)
  | a0 :: _ =>
      let pipeRes := Executor.stagePipe n i st
      let curr_pipe := pipeRes.1
      let sd := Executor.stageStdin w i cmd ctx.prevPipe pipeRes.2
      match sd.1 with
      | .error e => (.error e, sd.2, ctx)
      | .ok stdinV =>
          let so := Executor.stageStdout n i cmd curr_pipe sd.2
          let stdoutV := so.1
          match fdOf stdinV with
          | .error e => (.error e, so.2, ctx)
          | .ok stdin_fd =>
              match fdOf stdoutV with
              | .error e => (.error e, so.2, ctx)
              | .ok stdout_fd =>
                  match Executor.stageTry w cmd a0 stdinV stdoutV stdin_fd stdout_fd so.2 ctx with
                  | (.ok none, st6, ctx1) =>
                      match ctx.prevPipe with
                      | some pp =>
                          let cl := st6.closeFd pp.1
                          match cl.1 with
                          | .error e => (.error e, cl.2, ctx1)
                          | .ok _ =>
                              (.ok none, cl.2, { ctx1 with prevPipe := curr_pipe })
                      | none =>
                          (.ok none, st6, { ctx1 with prevPipe := curr_pipe })
                  | r => r

/-- The stage loop over the enumerated commands. -/
def Executor.runStagesAux (w : World) (n : Nat) :
    List (Nat × Command) → ExecState → LoopCtx →
    (Except PyExc (Option Int)) × ExecState × LoopCtx
  | [], st, ctx => (.ok none, st, ctx)
  | (i, c) :: rest, st, ctx =>
      match Executor.stageStep w n i c st ctx with
      | (.ok none, st', ctx') => Executor.runStagesAux w n rest st' ctx'
      | r => r

/-- The non-builtin part of `Executor.execute_pipeline` (shell.py lines
361-432): run the stage loop, then either report the background job (using
the last *process*, an `IndexError` when none was spawned) and return 0, or
wait for every process in order, ending with the last one's exit status (0
when nothing was spawned).  The background check reads the loop variable
`cmd`, i.e. the pipeline's last command. -/
def Executor.runStages (w : World) (cmds : List Command) (st : ExecState) :
    (Except PyExc Int) × ExecState :=
  match Executor.runStagesAux w cmds.length cmds.enum st ⟨none, []⟩ with
  | (.error e, st', _) => (.error e, st')
  | (.ok (some s), st', _) => (.ok s, st')
  | (.ok none, st', ctx) =>
      match cmds.getLast? with
      | none => (.error .nameError, st')
      | some lastCmd =>
          if lastCmd.background then
            match ctx.processes.getLast? with
            | none => (.error .indexError, st')
            | some pc =>
                (.ok 0, st'.addOut ("[" ++ Nat.repr pc.1 ++ "] started in background"))
          else
            (.ok (ctx.processes.foldl (fun _ pc => pc.2) 0), st')

/-- One unfolding of `Executor.execute_pipeline` (shell.py lines 349-432),
parameterized by the executor used for `source`'s recursion: empty pipeline
is a no-op with status 0; a single command is offered to the builtins first;
otherwise the stage loop runs. -/
def Executor.execPipelineStep
    (execPl : Pipeline → ExecState → (Except PyExc Int) × ExecState)
    (pl : Pipeline) (st : ExecState) (w : World) :
    (Except PyExc Int) × ExecState :=
  match pl.commands with
  | [] => (.ok 0, st)
  | [c] =>
      match Builtins.execute execPl c st w with
      | (some r, st') => (r, st')
      | (none, st') => Executor.runStages w [c] st'
  | cs => Executor.runStages w cs st

/-- `Executor.execute_pipeline` with a recursion budget for `source`
(Python's own limit surfaces as `RecursionError`, an `Exception` the shell
loop catches). -/
def Executor.execute_pipeline :
    Nat → Pipeline → ExecState → World → (Except PyExc Int) × ExecState
  | 0, _, st, _ => (.error .recursionError, st)
  | fuel + 1, pl, st, w =>
      Executor.execPipelineStep
        (fun pl' st' => Executor.execute_pipeline fuel pl' st' w) pl st w

-- ============ SHELL LOOP ============

/-- `for pipeline in pipelines: self.last_status = Executor.execute_pipeline(...)`
(shell.py lines 547-548): thread the statuses, stopping at an exception. -/
def Shell.runPipelines (fuel : Nat) :
    List Pipeline → Int → ExecState → World → (Except PyExc Int) × ExecState
  | [], prev, st, _ => (.ok prev, st)
  | pl :: rest, _prev, st, w =>
      match Executor.execute_pipeline fuel pl st w with
      | (.ok s, st') => Shell.runPipelines fuel rest s st' w
      | (.error e, st') => (.error e, st')

/-- Result of one iteration of the shell loop: terminate the interpreter
(`SystemExit` from builtin `exit`) or continue with a last status. -/
inductive LineRes where
  | exit (code : Int) (st : ExecState)
  | cont (lastStatus : Int) (st : ExecState)
  deriving DecidableEq, Repr

/-- The execution half of the loop body of `Shell.run` (shell.py lines
547-561): run the parsed pipelines, then store `"?"`; a `SystemExit`
propagates (terminating the interpreter); any other exception is caught,
reported as `Error: ...`, and sets the status to 1 — without updating `"?"`. -/
def Shell.lineBodyAux (fuel : Nat) (pls : List Pipeline) (prev : Int)
    (st : ExecState) (w : World) : LineRes :=
  match Shell.runPipelines fuel pls prev st w with
  | (.ok s, st') => .cont s (st'.setVar "?" (pyStrInt s))
  | (.error (.systemExit c), st') => .exit c st'
  | (.error e, st') => .cont 1 (st'.addErr ("Error: " ++ e.msg))

/-- The full loop body of `Shell.run` for one input line (shell.py lines
536-561): skip blank lines, record history, parse (a parse error is caught
by the same `except Exception`), then execute. -/
def Shell.lineBody (fuel : Nat) (line : String) (prev : Int)
    (st : ExecState) (w : World) : LineRes :=
  if pyStrip line = "" then .cont prev st
  else
    let st := st.addHistory line
    match Parser.parse line st.env w with
    | .error (.systemExit c) => .exit c st
    | .error e => .cont 1 (st.addErr ("Error: " ++ e.msg))
    | .ok pls => Shell.lineBodyAux fuel pls prev st w

-- ============ CONCRETE FIXTURES ============

/-- A fixed OS oracle: `nosuchcmd` does not exist, `false` exits 1, every
other program exits 0; `chdir` succeeds; `f.sh` contains one line running
`nosuchcmd`; globbing matches nothing. -/
def stdWorld : World :=
  { spawn := fun a =>
      if a = ["nosuchcmd"] then .notFound
      else if a = ["false"] then .ok 1
      else .ok 0,
    chdir := fun _ p => .ok p,
    readFile := fun f => if f = "f.sh" then some ["nosuchcmd"] else none,
    glob := fun _ => [],
    homeDir := "/root" }

/-- A small starting environment with `HOME` set and `"?"` holding `0`. -/
def baseEnv : Environment := ⟨[("HOME", "/root"), ("?", "0")], [], []⟩

/-- A starting interpreter state: nothing printed, nothing spawned, the next
file descriptor is 3. -/
def baseSt : ExecState :=
  { env := baseEnv, cwd := "/root", outLines := [], errLines := [],
    spawns := [], nextFd := 3, openFds := [], fdOpens := [], fdCloses := [],
    nextPid := 1000 }

-- ============ CLAIM C1 ============

/-- C1: the claim says a foreground pipeline whose stages all spawn reports
the last stage's exit status (`false | true` → 0, `true | false` → 1).  The
code cannot do this: for any multi-stage pipeline, stage 0 stores the pipe's
raw write descriptor (an `int`) in `stdout` and then evaluates
`stdout.fileno()`, which raises `AttributeError` before even the first stage
is spawned; here `false | true` raises instead of returning 0, and nothing
is spawned. -/
theorem c1_false_true_raises_attribute_error :
    (Executor.execute_pipeline 1 ⟨[mkCmd ["false"], mkCmd ["true"]]⟩ baseSt stdWorld).1
      = .error .attributeError ∧
    (Executor.execute_pipeline 1 ⟨[mkCmd ["false"], mkCmd ["true"]]⟩ baseSt stdWorld).2.spawns
      = [] ∧
    stdWorld.spawn ["false"] = .ok 1 ∧ stdWorld.spawn ["true"] = .ok 0 := by
  refine ⟨rfl, rfl, rfl, rfl⟩

-- ============ CLAIM C4 ============

/-- C4: the claim says every pipe descriptor handed to a child and every
previous read end is closed in the parent exactly once on every exit path.
In fact executing `true | false` creates the stage-0 pipe (descriptors 3 and
4, logged in `fdOpens`) and then raises `AttributeError` at
`stdout.fileno()`, leaving both descriptors open: no `os.close` ever runs
(`fdCloses` stays empty, `openFds` still holds both ends). -/
theorem c4_pipe_descriptors_leak :
    (Executor.execute_pipeline 1 ⟨[mkCmd ["true"], mkCmd ["false"]]⟩ baseSt stdWorld).1
      = .error .attributeError ∧
    (Executor.execute_pipeline 1 ⟨[mkCmd ["true"], mkCmd ["false"]]⟩ baseSt stdWorld).2.fdOpens
      = [3, 4] ∧
    (Executor.execute_pipeline 1 ⟨[mkCmd ["true"], mkCmd ["false"]]⟩ baseSt stdWorld).2.fdCloses
      = [] ∧
    (Executor.execute_pipeline 1 ⟨[mkCmd ["true"], mkCmd ["false"]]⟩ baseSt stdWorld).2.openFds
      = [3, 4] := by
  refine ⟨rfl, rfl, rfl, rfl⟩

-- ============ CLAIM C8 ============

/-- A fold whose step preserves the spawn log preserves it overall. -/
theorem foldl_spawns {α : Type} (f : ExecState → α → ExecState)
    (hf : ∀ s a, (f s a).spawns = s.spawns) :
    ∀ (l : List α) (st : ExecState), (l.foldl f st).spawns = st.spawns := by
  intro l
  induction l with
  | nil => intro st; rfl
  | cons a rest ih => intro st; rw [List.foldl_cons, ih, hf]

/-- Printing the variable listing spawns nothing. -/
theorem printVarsSorted_spawns (st : ExecState) : st.printVarsSorted.spawns = st.spawns := by
  apply foldl_spawns
  intro s a
  rfl

/-- `cd` spawns nothing. -/
theorem cmd_cd_spawns (c : Command) (st : ExecState) (w : World) :
    (Builtins.cmd_cd c st w).2.spawns = st.spawns := by
  simp only [Builtins.cmd_cd]
  split <;> rfl

/-- `exit` spawns nothing. -/
theorem cmd_exit_spawns (c : Command) (st : ExecState) (w : World) :
    (Builtins.cmd_exit c st w).2.spawns = st.spawns := by
  simp only [Builtins.cmd_exit]
  split
  · split <;> rfl
  · rfl

/-- `export` spawns nothing. -/
theorem cmd_export_spawns (c : Command) (st : ExecState) (w : World) :
    (Builtins.cmd_export c st w).2.spawns = st.spawns := by
  simp only [Builtins.cmd_export]
  split
  · exact printVarsSorted_spawns st
  · apply foldl_spawns
    intro s a
    split <;> rfl

/-- `alias` spawns nothing. -/
theorem cmd_alias_spawns (c : Command) (st : ExecState) (w : World) :
    (Builtins.cmd_alias c st w).2.spawns = st.spawns := by
  simp only [Builtins.cmd_alias]
  split
  · apply foldl_spawns
    intro s a
    rfl
  · apply foldl_spawns
    intro s a
    split <;> rfl

/-- `history` spawns nothing. -/
theorem cmd_history_spawns (c : Command) (st : ExecState) (w : World) :
    (Builtins.cmd_history c st w).2.spawns = st.spawns := by
  apply foldl_spawns
  intro s a
  rfl

/-- `unalias` spawns nothing. -/
theorem cmd_unalias_spawns (c : Command) (st : ExecState) (w : World) :
    (Builtins.cmd_unalias c st w).2.spawns = st.spawns := by
  apply foldl_spawns
  intro s a
  rfl

/-- C8: a single-command pipeline whose `argv[0]` is a builtin name is
dispatched to the builtin handler — `execute_pipeline` returns exactly the
handler's result and state, so no external process is spawned for the
command itself (for every handler but `source`, which re-enters the
executor for the sourced file's own pipelines, the spawn log is unchanged
outright); and a pipeline with two or more commands bypasses the builtin
check entirely, going straight to the external stage loop. -/
theorem c8_builtin_dispatch :
    (∀ (fuel : Nat) (c : Command) (st : ExecState) (w : World) (name : String),
      c.args.head? = some name → name ∈ builtinNames →
      ∃ r st', Builtins.execute
          (fun pl' st'' => Executor.execute_pipeline fuel pl' st'' w) c st w = (some r, st') ∧
        Executor.execute_pipeline (fuel + 1) ⟨[c]⟩ st w = (r, st') ∧
        (name ≠ "source" → st'.spawns = st.spawns))
    ∧ (∀ (fuel : Nat) (pl : Pipeline) (st : ExecState) (w : World),
        2 ≤ pl.commands.length →
        Executor.execute_pipeline (fuel + 1) pl st w = Executor.runStages w pl.commands st) := by
  constructor
  · intro fuel c st w name hhead hmem
    obtain ⟨rest, hargs⟩ : ∃ rest, c.args = name :: rest := by
      cases ha : c.args with
      | nil => simp [ha] at hhead
      | cons x xs => simp [ha] at hhead; exact ⟨xs, by rw [hhead]⟩
    have hexec : ∀ r : (Except PyExc Int) × ExecState,
        Builtins.execute (fun pl' st'' => Executor.execute_pipeline fuel pl' st'' w) c st w
          = (some r.1, r.2) →
        Executor.execute_pipeline (fuel + 1) ⟨[c]⟩ st w = (r.1, r.2) := by
      intro r hr
      simp [Executor.execute_pipeline, Executor.execPipelineStep, hr]
    simp only [builtinNames, List.mem_cons, List.not_mem_nil, or_false] at hmem
    rcases hmem with rfl | rfl | rfl | rfl | rfl | rfl | rfl | rfl | rfl | rfl
    · exact ⟨(Builtins.cmd_cd c st w).1, (Builtins.cmd_cd c st w).2,
        by simp [Builtins.execute, hargs],
        hexec (Builtins.cmd_cd c st w) (by simp [Builtins.execute, hargs]),
        fun _ => cmd_cd_spawns c st w⟩
    · exact ⟨(Builtins.cmd_pwd c st w).1, (Builtins.cmd_pwd c st w).2,
        by simp [Builtins.execute, hargs],
        hexec (Builtins.cmd_pwd c st w) (by simp [Builtins.execute, hargs]),
        fun _ => rfl⟩
    · exact ⟨(Builtins.cmd_exit c st w).1, (Builtins.cmd_exit c st w).2,
        by simp [Builtins.execute, hargs],
        hexec (Builtins.cmd_exit c st w) (by simp [Builtins.execute, hargs]),
        fun _ => cmd_exit_spawns c st w⟩
    · exact ⟨(Builtins.cmd_export c st w).1, (Builtins.cmd_export c st w).2,
        by simp [Builtins.execute, hargs],
        hexec (Builtins.cmd_export c st w) (by simp [Builtins.execute, hargs]),
        fun _ => cmd_export_spawns c st w⟩
    · exact ⟨(Builtins.cmd_echo c st w).1, (Builtins.cmd_echo c st w).2,
        by simp [Builtins.execute, hargs],
        hexec (Builtins.cmd_echo c st w) (by simp [Builtins.execute, hargs]),
        fun _ => rfl⟩
    · exact ⟨(Builtins.cmd_history c st w).1, (Builtins.cmd_history c st w).2,
        by simp [Builtins.execute, hargs],
        hexec (Builtins.cmd_history c st w) (by simp [Builtins.execute, hargs]),
        fun _ => cmd_history_spawns c st w⟩
    · exact ⟨(Builtins.cmd_alias c st w).1, (Builtins.cmd_alias c st w).2,
        by simp [Builtins.execute, hargs],
        hexec (Builtins.cmd_alias c st w) (by simp [Builtins.execute, hargs]),
        fun _ => cmd_alias_spawns c st w⟩
    · exact ⟨(Builtins.cmd_unalias c st w).1, (Builtins.cmd_unalias c st w).2,
        by simp [Builtins.execute, hargs],
        hexec (Builtins.cmd_unalias c st w) (by simp [Builtins.execute, hargs]),
        fun _ => cmd_unalias_spawns c st w⟩
    · exact ⟨(Builtins.cmd_env c st w).1, (Builtins.cmd_env c st w).2,
        by simp [Builtins.execute, hargs],
        hexec (Builtins.cmd_env c st w) (by simp [Builtins.execute, hargs]),
        fun _ => printVarsSorted_spawns st⟩
    · exact ⟨(Builtins.cmd_source
          (fun pl' st'' => Executor.execute_pipeline fuel pl' st'' w) c st w).1,
        (Builtins.cmd_source
          (fun pl' st'' => Executor.execute_pipeline fuel pl' st'' w) c st w).2,
        by simp [Builtins.execute, hargs],
        hexec (Builtins.cmd_source
          (fun pl' st'' => Executor.execute_pipeline fuel pl' st'' w) c st w)
          (by simp [Builtins.execute, hargs]),
        fun hns => absurd rfl hns⟩
  · intro fuel pl st w hlen
    rcases hc : pl.commands with _ | ⟨a, _ | ⟨b, rest⟩⟩
    · simp [hc] at hlen
    · simp [hc] at hlen
    · simp [Executor.execute_pipeline, Executor.execPipelineStep, hc]

/-- C8 witness: `pwd` as a single-command pipeline is dispatched as a
builtin (printing the working directory, status 0, no spawn), and the
two-command pipeline `pwd | pwd` is not offered to the builtins at all. -/
theorem c8_builtin_dispatch_witness :
    (∃ r st', Builtins.execute
        (fun pl' st'' => Executor.execute_pipeline 1 pl' st'' stdWorld)
        (mkCmd ["pwd"]) baseSt stdWorld = (some r, st') ∧
      Executor.execute_pipeline 2 ⟨[mkCmd ["pwd"]]⟩ baseSt stdWorld = (r, st') ∧
      ("pwd" ≠ "source" → st'.spawns = baseSt.spawns)) ∧
    Executor.execute_pipeline 2 ⟨[mkCmd ["pwd"], mkCmd ["pwd"]]⟩ baseSt stdWorld
      = Executor.runStages stdWorld [mkCmd ["pwd"], mkCmd ["pwd"]] baseSt := by
  constructor
  · exact c8_builtin_dispatch.1 1 (mkCmd ["pwd"]) baseSt stdWorld "pwd" rfl (by decide)
  · exact c8_builtin_dispatch.2 1 ⟨[mkCmd ["pwd"], mkCmd ["pwd"]]⟩ baseSt stdWorld (by decide)

-- ============ CLAIM C9 ============

/-- C9: a command with an empty argument list is skipped silently by the
stage loop: its iteration leaves the state and the loop locals completely
unchanged (nothing spawned, no pipe created, no error raised) and the loop
continues with the remaining stages exactly as if the iteration had not
happened. -/
theorem c9_empty_command_skipped :
    ∀ (w : World) (n i : Nat) (cmd : Command) (st : ExecState) (ctx : LoopCtx),
    cmd.args = [] →
    Executor.stageStep w n i cmd st ctx = (.ok none, st, ctx) ∧
    (∀ rest, Executor.runStagesAux w n ((i, cmd) :: rest) st ctx
        = Executor.runStagesAux w n rest st ctx) := by
  intro w n i cmd st ctx h
  constructor
  · simp [Executor.stageStep, h]
  · intro rest
    simp [Executor.runStagesAux, Executor.stageStep, h]

/-- C9 witness: the concrete empty-args stage 0 of a two-stage pipeline is
skipped and the loop proceeds with the `true` stage. -/
theorem c9_empty_command_skipped_witness :
    Executor.stageStep stdWorld 2 0 (mkCmd []) baseSt ⟨none, []⟩ = (.ok none, baseSt, ⟨none, []⟩) ∧
    Executor.runStagesAux stdWorld 2 [(0, mkCmd []), (1, mkCmd ["true"])] baseSt ⟨none, []⟩
      = Executor.runStagesAux stdWorld 2 [(1, mkCmd ["true"])] baseSt ⟨none, []⟩ := by
  refine ⟨(c9_empty_command_skipped stdWorld 2 0 (mkCmd []) baseSt ⟨none, []⟩ rfl).1,
    (c9_empty_command_skipped stdWorld 2 0 (mkCmd []) baseSt ⟨none, []⟩ rfl).2 _⟩

-- ============ CLAIM C10 ============

/-- C10: builtin `exit` terminates the interpreter (a `SystemExit` that the
shell loop does not catch) exactly when its argument is absent or accepted
by `int`; on any other argument `cmd_exit` raises `ValueError` before
`sys.exit` is reached, the shell loop catches it like any other exception,
reports it, and continues with status 1 (and `"?"` is left unchanged). -/
theorem c10_exit_argument_handling :
    (∀ (cmd : Command) (st : ExecState) (w : World) (a : String) (fuel : Nat) (prev : Int),
      cmd.args = ["exit", a] → pyInt a = none →
      Builtins.cmd_exit cmd st w = (.error .valueError, st) ∧
      Shell.lineBodyAux (fuel + 1) [⟨[cmd]⟩] prev st w
        = .cont 1 (st.addErr ("Error: " ++ PyExc.msg .valueError)))
    ∧ (∀ (cmd : Command) (st : ExecState) (w : World) (a : String) (n : Int) (fuel : Nat) (prev : Int),
      cmd.args = ["exit", a] → pyInt a = some n →
      Shell.lineBodyAux (fuel + 1) [⟨[cmd]⟩] prev st w = .exit n st)
    ∧ (∀ (cmd : Command) (st : ExecState) (w : World) (fuel : Nat) (prev : Int),
      cmd.args = ["exit"] →
      Shell.lineBodyAux (fuel + 1) [⟨[cmd]⟩] prev st w = .exit 0 st) := by
  refine ⟨?_, ?_, ?_⟩
  · intro cmd st w a fuel prev hargs hint
    constructor
    · simp [Builtins.cmd_exit, hargs, hint]
    · simp [Shell.lineBodyAux, Shell.runPipelines, Executor.execute_pipeline,
        Executor.execPipelineStep, Builtins.execute, Builtins.cmd_exit, hargs, hint,
        PyExc.msg]
  · intro cmd st w a n fuel prev hargs hint
    simp [Shell.lineBodyAux, Shell.runPipelines, Executor.execute_pipeline,
      Executor.execPipelineStep, Builtins.execute, Builtins.cmd_exit, hargs, hint]
  · intro cmd st w fuel prev hargs
    simp [Shell.lineBodyAux, Shell.runPipelines, Executor.execute_pipeline,
      Executor.execPipelineStep, Builtins.execute, Builtins.cmd_exit, hargs]

/-- C10 witness: `exit abc` raises `ValueError` and the loop continues with
status 1; `exit 7` terminates the interpreter with code 7; bare `exit`
terminates with code 0. -/
theorem c10_exit_argument_handling_witness :
    (Builtins.cmd_exit (mkCmd ["exit", "abc"]) baseSt stdWorld = (.error .valueError, baseSt) ∧
     Shell.lineBodyAux 3 [⟨[mkCmd ["exit", "abc"]]⟩] 0 baseSt stdWorld
       = .cont 1 (baseSt.addErr ("Error: " ++ PyExc.msg .valueError))) ∧
    Shell.lineBodyAux 3 [⟨[mkCmd ["exit", "7"]]⟩] 0 baseSt stdWorld = .exit 7 baseSt ∧
    Shell.lineBodyAux 3 [⟨[mkCmd ["exit"]]⟩] 0 baseSt stdWorld = .exit 0 baseSt := by
  refine ⟨c10_exit_argument_handling.1 (mkCmd ["exit", "abc"]) baseSt stdWorld "abc" 2 0 rfl (by decide),
    c10_exit_argument_handling.2.1 (mkCmd ["exit", "7"]) baseSt stdWorld "7" 7 2 0 rfl (by decide),
    c10_exit_argument_handling.2.2 (mkCmd ["exit"]) baseSt stdWorld 2 0 rfl⟩

-- ============ CLAIM C3 ============

/-- `os.close` never touches the spawn log. -/
theorem closeFd_spawns (st : ExecState) (fd : Nat) :
    (st.closeFd fd).2.spawns = st.spawns := by
  simp only [ExecState.closeFd]
  split <;> rfl

/-- Closing a raw descriptor never touches the spawn log. -/
theorem closeIfInt_spawns (v : FdVal) (st : ExecState) :
    (closeIfInt v st).2.spawns = st.spawns := by
  simp only [closeIfInt]
  split
  · split
    · rfl
    · exact closeFd_spawns st _
  · rfl

/-- Creating the inter-stage pipe never touches the spawn log. -/
theorem stagePipe_spawns (n i : Nat) (st : ExecState) :
    (Executor.stagePipe n i st).2.spawns = st.spawns := by
  simp only [Executor.stagePipe]
  split <;> rfl

/-- Stdin selection never touches the spawn log. -/
theorem stageStdin_spawns (w : World) (i : Nat) (cmd : Command)
    (pp : Option (Nat × Nat)) (st : ExecState) :
    (Executor.stageStdin w i cmd pp st).2.spawns = st.spawns := by
  simp only [Executor.stageStdin]
  split
  · split <;> rfl
  · split <;> rfl

/-- Stdout selection never touches the spawn log. -/
theorem stageStdout_spawns (n i : Nat) (cmd : Command)
    (cp : Option (Nat × Nat)) (st : ExecState) :
    (Executor.stageStdout n i cmd cp st).2.spawns = st.spawns := by
  simp only [Executor.stageStdout]
  split
  · rfl
  · split <;> rfl

/-- Every spawn record the try-block adds carries the command's own argv and
background flag, with stderr `PIPE` for a non-background command and `None`
(inherited) for a background one — exactly the `Popen` call's
`stderr=subprocess.PIPE if not cmd.background else None`. -/
theorem stageTry_spawn_mem (w : World) (cmd : Command) (a0 : String)
    (v1 v2 : FdVal) (f1 f2 : Option Nat) (st : ExecState) (ctx : LoopCtx)
    (e : SpawnEvent)
    (hmem : e ∈ (Executor.stageTry w cmd a0 v1 v2 f1 f2 st ctx).2.1.spawns) :
    e ∈ st.spawns ∨ (e.argv = cmd.args ∧ e.background = cmd.background ∧
      e.stderr = (if cmd.background then StderrSpec.inherited else StderrSpec.piped)) := by
  simp only [Executor.stageTry] at hmem
  split at hmem
  · exact Or.inl hmem
  · exact Or.inl hmem
  · split at hmem <;>
      simp only [ExecState.addErr, closeIfInt_spawns] at hmem
    · rw [List.mem_append] at hmem
      rcases hmem with h | h
      · exact Or.inl h
      · simp only [List.mem_singleton] at h
        subst h
        exact Or.inr ⟨rfl, rfl, rfl⟩
    · split at hmem <;> simp only [ExecState.addErr, closeIfInt_spawns] at hmem <;>
        (rw [List.mem_append] at hmem
         rcases hmem with h | h
         · exact Or.inl h
         · simp only [List.mem_singleton] at h
           subst h
           exact Or.inr ⟨rfl, rfl, rfl⟩)

/-- Lifting `stageTry_spawn_mem` through one whole stage iteration. -/
theorem stageStep_spawn_mem (w : World) (n i : Nat) (cmd : Command)
    (st : ExecState) (ctx : LoopCtx) (e : SpawnEvent)
    (hmem : e ∈ (Executor.stageStep w n i cmd st ctx).2.1.spawns) :
    e ∈ st.spawns ∨ (e.argv = cmd.args ∧ e.background = cmd.background ∧
      e.stderr = (if cmd.background then StderrSpec.inherited else StderrSpec.piped)) := by
  simp only [Executor.stageStep] at hmem
  split at hmem
  · exact Or.inl hmem
  next x0 a0 rest0 heq0 =>
    split at hmem
    · rw [stageStdin_spawns, stagePipe_spawns] at hmem
      exact Or.inl hmem
    next x1 stdinV heq1 =>
      split at hmem
      · rw [stageStdout_spawns, stageStdin_spawns, stagePipe_spawns] at hmem
        exact Or.inl hmem
      next x2 sfd heq2 =>
        split at hmem
        · rw [stageStdout_spawns, stageStdin_spawns, stagePipe_spawns] at hmem
          exact Or.inl hmem
        next x3 ofd heq3 =>
          have key : ∀ (r : (Except PyExc (Option Int)) × ExecState × LoopCtx),
              Executor.stageTry w cmd a0 stdinV
                (Executor.stageStdout n i cmd (Executor.stagePipe n i st).1
                  (Executor.stageStdin w i cmd ctx.prevPipe (Executor.stagePipe n i st).2).2).1
                sfd ofd
                (Executor.stageStdout n i cmd (Executor.stagePipe n i st).1
                  (Executor.stageStdin w i cmd ctx.prevPipe (Executor.stagePipe n i st).2).2).2
                ctx = r →
              e ∈ r.2.1.spawns →
              e ∈ st.spawns ∨ (e.argv = cmd.args ∧ e.background = cmd.background ∧
                e.stderr = (if cmd.background then StderrSpec.inherited else StderrSpec.piped)) := by
            intro r hr hm
            rcases stageTry_spawn_mem w cmd a0 stdinV _ sfd ofd _ ctx e (by rw [hr]; exact hm)
              with h | h
            · rw [stageStdout_spawns, stageStdin_spawns, stagePipe_spawns] at h
              exact Or.inl h
            · exact Or.inr h
          split at hmem
          next st6 ctx1 heq =>
            split at hmem
            next pp hpp =>
              split at hmem
              · exact key _ heq (by simpa [closeFd_spawns] using hmem)
              · exact key _ heq (by simpa [closeFd_spawns] using hmem)
            next hpp =>
              exact key _ heq hmem
          next r hne =>
            exact key _ rfl hmem

/-- An enumerated member's payload is a member. -/
theorem mem_enumFrom_snd {α : Type} (p : Nat × α) :
    ∀ (k : Nat) (l : List α), p ∈ l.enumFrom k → p.2 ∈ l := by
  intro k l
  induction l generalizing k with
  | nil => intro h; simp [List.enumFrom] at h
  | cons a rest ih =>
    intro h
    simp only [List.enumFrom, List.mem_cons] at h
    rcases h with h | h
    · subst h; exact List.mem_cons_self a rest
    · exact List.mem_cons_of_mem a (ih (k + 1) h)

/-- `stageStep_spawn_mem` lifted over the whole stage loop. -/
theorem runStagesAux_spawn_mem (w : World) (n : Nat) :
    ∀ (l : List (Nat × Command)) (st : ExecState) (ctx : LoopCtx) (e : SpawnEvent),
    e ∈ (Executor.runStagesAux w n l st ctx).2.1.spawns →
    e ∈ st.spawns ∨ ∃ p ∈ l, e.argv = p.2.args ∧ e.background = p.2.background ∧
      e.stderr = (if p.2.background then StderrSpec.inherited else StderrSpec.piped) := by
  intro l
  induction l with
  | nil => intro st ctx e h; exact Or.inl h
  | cons ic rest ih =>
    intro st ctx e h
    rcases ic with ⟨i, c⟩
    rcases hs : Executor.stageStep w n i c st ctx with ⟨r1, st', ctx'⟩
    have push : e ∈ st'.spawns →
        e ∈ st.spawns ∨ ∃ p ∈ (i, c) :: rest, e.argv = p.2.args ∧
          e.background = p.2.background ∧
          e.stderr = (if p.2.background then StderrSpec.inherited else StderrSpec.piped) := by
      intro hm
      have : e ∈ (Executor.stageStep w n i c st ctx).2.1.spawns := by rw [hs]; exact hm
      rcases stageStep_spawn_mem w n i c st ctx e this with h1 | h1
      · exact Or.inl h1
      · exact Or.inr ⟨(i, c), List.mem_cons_self _ _, h1⟩
    simp only [Executor.runStagesAux, hs] at h
    rcases r1 with e1 | o1
    · exact push h
    · rcases o1 with _ | s1
      · rcases ih st' ctx' e h with h1 | ⟨p, hp, hprops⟩
        · exact push h1
        · exact Or.inr ⟨p, List.mem_cons_of_mem _ hp, hprops⟩
      · exact push h

/-- C3: the claim's statement is backwards.  The code runs
`stderr=subprocess.PIPE if not cmd.background else None`, so every process
the stage loop spawns has its standard error *captured into a pipe* (that
the shell never reads) when the stage's background flag is false, and
*inherited* when the flag is true — whatever world, pipeline, or starting
state. -/
theorem c3_stderr_piped_foreground (w : World) (cmds : List Command)
    (st : ExecState) (e : SpawnEvent)
    (hmem : e ∈ (Executor.runStages w cmds st).2.spawns) :
    e ∈ st.spawns ∨ ∃ c ∈ cmds, e.argv = c.args ∧ e.background = c.background ∧
      e.stderr = (if c.background then StderrSpec.inherited else StderrSpec.piped) := by
  have conv1 : ∀ (x : Nat × Command), x ∈ cmds.enum → x.2 ∈ cmds := by
    intro x hx
    exact mem_enumFrom_snd x 0 cmds hx
  rcases ha : Executor.runStagesAux w cmds.length cmds.enum st ⟨none, []⟩ with ⟨r1, st', ctx⟩
  have push : e ∈ st'.spawns →
      e ∈ st.spawns ∨ ∃ c ∈ cmds, e.argv = c.args ∧ e.background = c.background ∧
        e.stderr = (if c.background then StderrSpec.inherited else StderrSpec.piped) := by
    intro hm
    have : e ∈ (Executor.runStagesAux w cmds.length cmds.enum st ⟨none, []⟩).2.1.spawns := by
      rw [ha]; exact hm
    rcases runStagesAux_spawn_mem w cmds.length cmds.enum st ⟨none, []⟩ e this
      with h1 | ⟨p, hp, hprops⟩
    · exact Or.inl h1
    · exact Or.inr ⟨p.2, conv1 p hp, hprops⟩
  simp only [Executor.runStages, ha] at hmem
  rcases r1 with e1 | o1
  · exact push hmem
  · rcases o1 with _ | s1
    · rcases hlast : cmds.getLast? with _ | lastCmd
      · simp only [hlast] at hmem
        exact push hmem
      · simp only [hlast] at hmem
        by_cases hbg : lastCmd.background
        · simp only [hbg, if_true] at hmem
          rcases hproc : ctx.processes.getLast? with _ | pc
          · simp only [hproc] at hmem
            exact push hmem
          · simp only [hproc, ExecState.addOut] at hmem
            exact push hmem
        · simp only [hbg, if_false] at hmem
          exact push hmem
    · exact push hmem

/-- C3 witness: the foreground `cat` stage's spawn record has `stderr`
captured (`PIPE`), matching the theorem's characterization. -/
theorem c3_stderr_piped_foreground_witness :
    { argv := ["cat"], stdinFd := none, stdoutFd := none,
      stderr := StderrSpec.piped, background := false, pid := 1000 : SpawnEvent }
        ∈ (Executor.runStages stdWorld [mkCmd ["cat"]] baseSt).2.spawns ∧
    (({ argv := ["cat"], stdinFd := none, stdoutFd := none,
        stderr := StderrSpec.piped, background := false, pid := 1000 : SpawnEvent })
          ∈ baseSt.spawns ∨
      ∃ c ∈ [mkCmd ["cat"]],
        (["cat"] : List String) = c.args ∧ false = c.background ∧
        StderrSpec.piped = (if c.background then StderrSpec.inherited else StderrSpec.piped)) := by
  refine ⟨by decide, ?_⟩
  exact c3_stderr_piped_foreground stdWorld [mkCmd ["cat"]] baseSt
    { argv := ["cat"], stdinFd := none, stdoutFd := none,
      stderr := StderrSpec.piped, background := false, pid := 1000 } (by decide)

/-- C3 counterexample to the claim as stated: for the foreground one-stage
pipeline `cat`, the spawned process's standard error is `PIPE` (captured),
not inherited; and for the backgrounded `cat &` it is `None` (inherited),
not detached. -/
theorem c3_claim_counterexample :
    ((Executor.execute_pipeline 1 ⟨[mkCmd ["cat"]]⟩ baseSt stdWorld).2.spawns.map
        SpawnEvent.stderr) = [StderrSpec.piped] ∧
    StderrSpec.piped ≠ StderrSpec.inherited ∧
    ((Executor.execute_pipeline 1
        ⟨[{ mkCmd ["cat"] with background := true }]⟩ baseSt stdWorld).2.spawns.map
        SpawnEvent.stderr) = [StderrSpec.inherited] := by
  refine ⟨rfl, by decide, rfl⟩

-- ============ CLAIM C2 ============

/-- `runPipelines` over an appended list runs the prefix first. -/
theorem runPipelines_append (fuel : Nat) (xs ys : List Pipeline) (prev : Int)
    (st : ExecState) (w : World) :
    Shell.runPipelines fuel (xs ++ ys) prev st w =
      match Shell.runPipelines fuel xs prev st w with
      | (.ok s, st') => Shell.runPipelines fuel ys s st' w
      | (.error e, st') => (.error e, st') := by
  induction xs generalizing prev st with
  | nil => simp [Shell.runPipelines]
  | cons p rest ih =>
    simp only [List.cons_append, Shell.runPipelines]
    rcases hr : Executor.execute_pipeline fuel p st w with ⟨r, st'⟩
    rcases r with e | s
    · rfl
    · exact ih s st'

/-- Looking up a key just stored finds the stored value. -/
theorem getAssoc_setAssoc (l : List (String × String)) (k v : String) :
    getAssoc (setAssoc l k v) k = some v := by
  induction l with
  | nil => simp [setAssoc, getAssoc]
  | cons p rest ih =>
    rcases p with ⟨k1, v1⟩
    by_cases h : k1 = k
    · simp [setAssoc, getAssoc, h]
    · simp [setAssoc, getAssoc, h, ih]

/-- C2 (amended): `"?"` is written once per input line, by the shell loop
after *all* of the line's pipelines have run: when the earlier pipelines
complete with some status and the line's last pipeline completes with status
`s2`, the loop body ends in the continue state whose environment holds
`"?" = str(s2)`.  (Intermediate pipelines do not update `"?"` when they
complete — see the counterexample — and pipelines run by the `source`
builtin never write it.) -/
theorem c2_question_set_once_per_line (fuel : Nat) (pls : List Pipeline) (p : Pipeline)
    (prev : Int) (st : ExecState) (w : World) (s1 s2 : Int) (st1 st2 : ExecState)
    (h1 : Shell.runPipelines fuel pls prev st w = (.ok s1, st1))
    (h2 : Executor.execute_pipeline fuel p st1 w = (.ok s2, st2)) :
    Shell.lineBodyAux fuel (pls ++ [p]) prev st w
      = .cont s2 (st2.setVar "?" (pyStrInt s2)) ∧
    getAssoc (st2.setVar "?" (pyStrInt s2)).env.variables "?" = some (pyStrInt s2) := by
  constructor
  · unfold Shell.lineBodyAux
    rw [runPipelines_append, h1]
    simp only [Shell.runPipelines, h2]
  · simp only [ExecState.setVar, Environment.set]
    exact getAssoc_setAssoc st2.env.variables "?" (pyStrInt s2)

/-- C2 witness: for the line `nosuchcmd ; pwd` (statuses 127 then 0), the
loop body ends with `"?"` holding `"0"`, the last pipeline's status. -/
theorem c2_question_set_once_per_line_witness :
    Shell.lineBodyAux 2 ([⟨[mkCmd ["nosuchcmd"]]⟩] ++ [⟨[mkCmd ["pwd"]]⟩]) 0 baseSt stdWorld
      = .cont 0 (((baseSt.addErr "nosuchcmd: command not found").addOut "/root").setVar "?"
          (pyStrInt 0)) ∧
    getAssoc ((((baseSt.addErr "nosuchcmd: command not found").addOut "/root").setVar "?"
        (pyStrInt 0))).env.variables "?" = some (pyStrInt 0) := by
  exact c2_question_set_once_per_line 2 [⟨[mkCmd ["nosuchcmd"]]⟩] ⟨[mkCmd ["pwd"]]⟩ 0 baseSt
    stdWorld 127 0 (baseSt.addErr "nosuchcmd: command not found")
    ((baseSt.addErr "nosuchcmd: command not found").addOut "/root") rfl rfl

/-- C2 counterexample to the claim as stated: the pipeline `nosuchcmd`
completes with status 127 (control returns from `execute_pipeline`), yet
immediately after that completed pipeline the variable `"?"` still holds the
stale `"0"`, not `"127"` — it is only the end-of-line bookkeeping that will
later overwrite it. -/
theorem c2_claim_counterexample :
    (Shell.runPipelines 2 [⟨[mkCmd ["nosuchcmd"]]⟩] 0 baseSt stdWorld).1 = .ok 127 ∧
    getAssoc (Shell.runPipelines 2 [⟨[mkCmd ["nosuchcmd"]]⟩] 0 baseSt stdWorld).2.env.variables
      "?" = some "0" ∧
    ("0" : String) ≠ "127" := by
  refine ⟨rfl, rfl, by decide⟩

-- ============ CLAIM C7 ============

/-- A letter is not shell whitespace. -/
theorem alpha_not_pyWs (c : Char) (h : c.isAlpha = true) : isPyWs c = false := by
  by_contra hw
  rw [Bool.not_eq_false] at hw
  simp only [isPyWs, Bool.or_eq_true, decide_eq_true_eq] at hw
  rcases hw with ((((h1 | h1) | h1) | h1) | h1) | h1 <;> subst h1 <;> exact absurd h (by decide)

/-- A letter is not a double quote. -/
theorem alpha_ne_dquote (c : Char) (h : c.isAlpha = true) : c ≠ '"' := by
  rintro rfl
  exact absurd h (by decide)

/-- A letter is not a backslash. -/
theorem alpha_ne_bslash (c : Char) (h : c.isAlpha = true) : c ≠ bslash := by
  rintro rfl
  exact absurd h (by decide)

/-- Inside a double quote, the quote-aware splitter consumes everything up
to end-of-input and keeps the trailing chunk as-is: the splitters tolerate
unterminated quotes. -/
theorem splitScan_inquote (delim : Char) :
    ∀ (l cur : List Char), cur ≠ [] → (∀ c ∈ l, c ≠ '"') →
    Parser.splitScan delim l cur true (some '"') = [String.mk (cur.reverse ++ l)] := by
  intro l
  induction l with
  | nil =>
    intro cur hcur _
    simp [Parser.splitScan, hcur]
  | cons c rest ih =>
    intro cur hcur hl
    have hc : c ≠ '"' := hl c (List.mem_cons_self _ _)
    have hrest : ∀ x ∈ rest, x ≠ '"' := fun x hx => hl x (List.mem_cons_of_mem _ hx)
    simp only [Parser.splitScan]
    rw [if_neg (by simp), if_neg (by simp [hc]), if_neg (by simp)]
    rw [ih (c :: cur) (by simp) hrest]
    simp

/-- `shlex` in an unterminated double quote reaches end-of-input and raises
`ValueError` ("No closing quotation"). -/
theorem shlexAux_dq_unterminated :
    ∀ (l t : List Char), (∀ c ∈ l, c ≠ '"' ∧ c ≠ bslash) →
    shlexAux l (.dq t) = .error .valueError := by
  intro l
  induction l with
  | nil => intro t _; rfl
  | cons c rest ih =>
    intro t hl
    have hc := hl c (List.mem_cons_self _ _)
    have hrest : ∀ x ∈ rest, x ≠ '"' ∧ x ≠ bslash :=
      fun x hx => hl x (List.mem_cons_of_mem _ hx)
    unfold shlexAux
    rw [if_neg (by simp [hc.1]), if_neg (by simp [hc.2])]
    exact ih (c :: t) hrest

/-- `echo "<letters>` is left untouched by `strip`. -/
theorem pyStrip_fixed (l : List Char) (hne : l ≠ []) (hall : l.all Char.isAlpha) :
    pyStrip (String.mk ("echo \"".data ++ l)) = String.mk ("echo \"".data ++ l) := by
  unfold pyStrip
  have h1 : (String.mk ("echo \"".data ++ l)).data = "echo \"".data ++ l := rfl
  rw [h1]
  have hfront : (("echo \"".data ++ l).dropWhile isPyWs) = "echo \"".data ++ l := by
    show ((('e' :: "cho \"".data) ++ l).dropWhile isPyWs) = ('e' :: "cho \"".data) ++ l
    rw [List.cons_append, List.dropWhile_cons]
    simp +decide
  rw [hfront]
  rcases hrev : l.reverse with _ | ⟨c, lr⟩
  · exact absurd (by simpa using congrArg List.reverse hrev) hne
  · have hc : c.isAlpha = true := by
      have hcl : c ∈ l := by
        rw [← List.mem_reverse, hrev]
        exact List.mem_cons_self _ _
      exact List.all_eq_true.mp hall c hcl
    rw [List.reverse_append, hrev]
    rw [List.cons_append, List.dropWhile_cons, alpha_not_pyWs c hc]
    simp only [Bool.false_eq_true, if_false]
    rw [← List.cons_append, ← hrev]
    rw [List.reverse_append, List.reverse_reverse, List.reverse_reverse]

/-- C7 (amended): only the semicolon / pipe splitters tolerate unterminated
quotes (the trailing chunk is kept as-is); `Parser.parse` as a whole rejects
such a line, because `shlex.split` raises `ValueError` at end-of-input
inside the quote.  Shown for every line `echo "<letters>` with a nonempty
alphabetic tail: the semicolon splitter returns the line unchanged as a
single statement, while the full parse raises `ValueError` (which the shell
loop then reports, continuing with status 1). -/
theorem c7_unterminated_quote_parse (env : Environment) (w : World) (l : List Char)
    (hne : l ≠ []) (hall : l.all Char.isAlpha) :
    Parser._split_by_semicolon (String.mk ("echo \"".data ++ l))
      = [String.mk ("echo \"".data ++ l)] ∧
    Parser.parse (String.mk ("echo \"".data ++ l)) env w = .error .valueError := by
  have hnq : ∀ c ∈ l, c ≠ '"' := fun c hc =>
    alpha_ne_dquote c (List.all_eq_true.mp hall c hc)
  have hq2 : ∀ c ∈ l, c ≠ '"' ∧ c ≠ bslash := fun c hc =>
    ⟨alpha_ne_dquote c (List.all_eq_true.mp hall c hc),
     alpha_ne_bslash c (List.all_eq_true.mp hall c hc)⟩
  have hdata : (String.mk ("echo \"".data ++ l)).data
      = 'e' :: 'c' :: 'h' :: 'o' :: ' ' :: '"' :: l := rfl
  have hsemi : Parser._split_by_semicolon (String.mk ("echo \"".data ++ l))
      = [String.mk ("echo \"".data ++ l)] := by
    unfold Parser._split_by_semicolon
    rw [hdata]
    simp +decide only [Parser.splitScan, squote]
    rw [splitScan_inquote ';' l ('"' :: ' ' :: 'o' :: 'h' :: 'c' :: 'e' :: []) (by simp) hnq]
    simp
  have hpipe : Parser._split_by_pipe (String.mk ("echo \"".data ++ l))
      = [String.mk ("echo \"".data ++ l)] := by
    unfold Parser._split_by_pipe
    rw [hdata]
    simp +decide only [Parser.splitScan, squote]
    rw [splitScan_inquote '|' l ('"' :: ' ' :: 'o' :: 'h' :: 'c' :: 'e' :: []) (by simp) hnq]
    simp
  have hshlex : shlexSplit (String.mk ("echo \"".data ++ l)) = .error .valueError := by
    unfold shlexSplit
    rw [hdata]
    simp +decide [shlexAux, squote, bslash, isShlexWs]
    have hstep : shlexAux ('"' :: l) (ShlexSt.norm none) = shlexAux l (.dq []) := by
      conv_lhs => unfold shlexAux
      simp +decide [squote, bslash, isShlexWs]
    rw [hstep, shlexAux_dq_unterminated l [] hq2]
    rfl
  have hcmd : Parser._parse_command (String.mk ("echo \"".data ++ l)) env w
      = .error .valueError := by
    unfold Parser._parse_command
    rw [hshlex]
    rfl
  have hpl : Parser._parse_pipeline (String.mk ("echo \"".data ++ l)) env w
      = .error .valueError := by
    unfold Parser._parse_pipeline
    rw [hpipe]
    simp only [List.mapM, List.mapM.loop]
    rw [show ({ data := ['e', 'c', 'h', 'o', ' ', '"'] ++ l } : String)
        = String.mk ("echo \"".data ++ l) from rfl, hcmd]
    rfl
  refine ⟨hsemi, ?_⟩
  unfold Parser.parse
  rw [hsemi]
  simp only [Parser.parseStmts]
  rw [pyStrip_fixed l hne hall]
  rw [if_neg (by simp [String.ext_iff])]
  rw [hpl]

/-- C7 witness: the concrete line `echo "abc`. -/
theorem c7_unterminated_quote_parse_witness :
    Parser._split_by_semicolon (String.mk ("echo \"".data ++ ['a', 'b', 'c']))
      = [String.mk ("echo \"".data ++ ['a', 'b', 'c'])] ∧
    Parser.parse (String.mk ("echo \"".data ++ ['a', 'b', 'c'])) baseEnv stdWorld
      = .error .valueError := by
  exact c7_unterminated_quote_parse baseEnv stdWorld ['a', 'b', 'c'] (by decide) (by decide)

/-- C7 counterexample to the claim as stated: `Parser.parse` does raise on
an unterminated quote — parsing the line `echo "abc` is a `ValueError`, not
a tolerated best-effort parse. -/
theorem c7_claim_counterexample :
    Parser.parse "echo \"abc" baseEnv stdWorld = .error .valueError := by
  rfl

-- ============ CLAIM C5 ============

/-- Scanning an empty text yields an empty text. -/
theorem expandChars_nil (vars : List (String × String)) : expandChars vars [] = [] := by
  simp [expandChars]

/-- A character other than `$` is copied and scanning continues. -/
theorem expandChars_cons_ne (vars : List (String × String)) (c : Char) (rest : List Char)
    (hc : c ≠ '$') :
    expandChars vars (c :: rest) = c :: expandChars vars rest := by
  rw [expandChars.eq_def]
  split <;> simp_all

/-- A final lone `$` is literal. -/
theorem expandChars_dollar_end (vars : List (String × String)) :
    expandChars vars ['$'] = ['$'] := by
  rw [expandChars.eq_def]
  simp [expandChars]

/-- A closed braced group with nonempty content: a defined variable is
replaced by its value. -/
theorem expandChars_brace_some (vars : List (String × String)) (rest rest3 : List Char)
    (v : String)
    (hdw : rest.dropWhile (fun c => c ≠ '}') = '}' :: rest3)
    (htw : rest.takeWhile (fun c => c ≠ '}') ≠ [])
    (hv : getAssoc vars (String.mk (rest.takeWhile (fun c => c ≠ '}'))) = some v) :
    expandChars vars ('$' :: '{' :: rest) = v.data ++ expandChars vars rest3 := by
  rw [expandChars.eq_def]
  split
  · next heq => simp at heq
  · next restx heq =>
      injection heq with h1 h2
      injection h2 with h3 h4
      subst h4
      split
      · next rest3x heq2 =>
          rw [hdw] at heq2
          injection heq2 with h5 h6
          subst h6
          rw [if_neg (fun hh => htw (List.isEmpty_iff.mp hh)), hv]
      · next x heq2 =>
          exact (heq2 rest3 hdw).elim
  · next cx restx hx heq =>
      injection heq with h1 h2
      injection h2 with h3 h4
      exact absurd h3.symm hx
  · next cx restx hx1 hx2 heq =>
      injection heq with h1 h2
      exact (hx1 rest h1.symm h2.symm).elim

/-- A closed braced group with nonempty content: an undefined variable is
left literal and scanning continues after the group. -/
theorem expandChars_brace_none (vars : List (String × String)) (rest rest3 : List Char)
    (hdw : rest.dropWhile (fun c => c ≠ '}') = '}' :: rest3)
    (htw : rest.takeWhile (fun c => c ≠ '}') ≠ [])
    (hv : getAssoc vars (String.mk (rest.takeWhile (fun c => c ≠ '}'))) = none) :
    expandChars vars ('$' :: '{' :: rest)
      = '$' :: '{' :: rest.takeWhile (fun c => c ≠ '}') ++ '}' :: expandChars vars rest3 := by
  rw [expandChars.eq_def]
  split
  · next heq => simp at heq
  · next restx heq =>
      injection heq with h1 h2
      injection h2 with h3 h4
      subst h4
      split
      · next rest3x heq2 =>
          rw [hdw] at heq2
          injection heq2 with h5 h6
          subst h6
          rw [if_neg (fun hh => htw (List.isEmpty_iff.mp hh)), hv]
      · next x heq2 =>
          exact (heq2 rest3 hdw).elim
  · next cx restx hx heq =>
      injection heq with h1 h2
      injection h2 with h3 h4
      exact absurd h3.symm hx
  · next cx restx hx1 hx2 heq =>
      injection heq with h1 h2
      exact (hx1 rest h1.symm h2.symm).elim

/-- `$\x7b\x7d` (empty content) does not match; the `$` is literal and
scanning continues at the brace. -/
theorem expandChars_brace_empty (vars : List (String × String)) (rest rest3 : List Char)
    (hdw : rest.dropWhile (fun c => c ≠ '}') = '}' :: rest3)
    (htw : rest.takeWhile (fun c => c ≠ '}') = []) :
    expandChars vars ('$' :: '{' :: rest) = '$' :: expandChars vars ('{' :: rest) := by
  rw [expandChars.eq_def]
  split
  · next heq => simp at heq
  · next restx heq =>
      injection heq with h1 h2
      injection h2 with h3 h4
      subst h4
      split
      · next rest3x heq2 =>
          rw [if_pos (by rw [List.isEmpty_iff]; exact htw)]
      · next x heq2 =>
          exact (heq2 rest3 hdw).elim
  · next cx restx hx heq =>
      injection heq with h1 h2
      injection h2 with h3 h4
      exact absurd h3.symm hx
  · next cx restx hx1 hx2 heq =>
      injection heq with h1 h2
      exact (hx1 rest h1.symm h2.symm).elim

/-- An unclosed braced candidate does not match; the `$` is literal and
scanning continues at the brace. -/
theorem expandChars_brace_noclose (vars : List (String × String)) (rest : List Char)
    (hdw : rest.dropWhile (fun c => c ≠ '}') = []) :
    expandChars vars ('$' :: '{' :: rest) = '$' :: expandChars vars ('{' :: rest) := by
  rw [expandChars.eq_def]
  split
  · next heq => simp at heq
  · next restx heq =>
      injection heq with h1 h2
      injection h2 with h3 h4
      subst h4
      split
      · next rest3x heq2 =>
          rw [hdw] at heq2
          cases heq2
      · next x heq2 =>
          rfl
  · next cx restx hx heq =>
      injection heq with h1 h2
      injection h2 with h3 h4
      exact absurd h3.symm hx
  · next cx restx hx1 hx2 heq =>
      injection heq with h1 h2
      exact (hx1 rest h1.symm h2.symm).elim

/-- A bare `$NAME` with defined NAME (maximal munch) is replaced. -/
theorem expandChars_bare_some (vars : List (String × String)) (c : Char) (rest : List Char)
    (v : String) (hid : isIdentStart c = true)
    (hv : getAssoc vars (String.mk (c :: rest.takeWhile isIdentChar)) = some v) :
    expandChars vars ('$' :: c :: rest)
      = v.data ++ expandChars vars (rest.dropWhile isIdentChar) := by
  have hnb : c ≠ '{' := by
    rintro rfl
    exact absurd hid (by decide)
  rw [expandChars.eq_def]
  split <;> simp_all
  next cx restx hx heq =>
    exact absurd heq.2.symm (hx c rest heq.1.symm)

/-- A bare `$NAME` with undefined NAME is left literal. -/
theorem expandChars_bare_none (vars : List (String × String)) (c : Char) (rest : List Char)
    (hid : isIdentStart c = true)
    (hv : getAssoc vars (String.mk (c :: rest.takeWhile isIdentChar)) = none) :
    expandChars vars ('$' :: c :: rest)
      = '$' :: c :: rest.takeWhile isIdentChar ++ expandChars vars (rest.dropWhile isIdentChar) := by
  have hnb : c ≠ '{' := by
    rintro rfl
    exact absurd hid (by decide)
  rw [expandChars.eq_def]
  split <;> simp_all
  next cx restx hx heq =>
    exact absurd heq.2.symm (hx c rest heq.1.symm)

/-- `$` before a non-name character is literal. -/
theorem expandChars_dollar_nonident (vars : List (String × String)) (c : Char)
    (rest : List Char) (hnid : isIdentStart c = false) (hnb : c ≠ '{') :
    expandChars vars ('$' :: c :: rest) = '$' :: expandChars vars (c :: rest) := by
  rw [expandChars.eq_def]
  split <;> simp_all
  next cx restx hx heq =>
    exact absurd heq.2.symm (hx c rest heq.1.symm)

/-- Spec-side scanner: empty text. -/
theorem expandSpecChars_nil (vars : List (String × String)) :
    expandSpecChars vars [] = [] := by
  simp [expandSpecChars]

/-- Spec-side scanner: a character other than `$` is copied. -/
theorem expandSpecChars_cons_ne (vars : List (String × String)) (c : Char) (rest : List Char)
    (hc : c ≠ '$') :
    expandSpecChars vars (c :: rest) = c :: expandSpecChars vars rest := by
  rw [expandSpecChars.eq_def]
  split <;> simp_all

/-- Spec-side scanner: a final lone `$` is literal. -/
theorem expandSpecChars_dollar_end (vars : List (String × String)) :
    expandSpecChars vars ['$'] = ['$'] := by
  rw [expandSpecChars.eq_def]
  simp [expandSpecChars]

/-- Spec-side scanner: a braced valid NAME that is defined is replaced. -/
theorem expandSpecChars_brace_some (vars : List (String × String)) (rest rest3 : List Char)
    (v : String)
    (hdw : rest.dropWhile (fun c => c ≠ '}') = '}' :: rest3)
    (hvalid : validName (rest.takeWhile (fun c => c ≠ '}')) = true)
    (hv : getAssoc vars (String.mk (rest.takeWhile (fun c => c ≠ '}'))) = some v) :
    expandSpecChars vars ('$' :: '{' :: rest) = v.data ++ expandSpecChars vars rest3 := by
  rw [expandSpecChars.eq_def]
  split
  · next heq => simp at heq
  · next restx heq =>
      injection heq with h1 h2
      injection h2 with h3 h4
      subst h4
      split
      · next rest3x heq2 =>
          rw [hdw] at heq2
          injection heq2 with h5 h6
          subst h6
          rw [if_pos hvalid, hv]
      · next x heq2 =>
          exact (heq2 rest3 hdw).elim
  · next cx restx hx heq =>
      injection heq with h1 h2
      injection h2 with h3 h4
      exact absurd h3.symm hx
  · next cx restx hx1 hx2 heq =>
      injection heq with h1 h2
      exact (hx1 rest h1.symm h2.symm).elim

/-- Spec-side scanner: a braced valid NAME that is undefined stays literal. -/
theorem expandSpecChars_brace_none (vars : List (String × String)) (rest rest3 : List Char)
    (hdw : rest.dropWhile (fun c => c ≠ '}') = '}' :: rest3)
    (hvalid : validName (rest.takeWhile (fun c => c ≠ '}')) = true)
    (hv : getAssoc vars (String.mk (rest.takeWhile (fun c => c ≠ '}'))) = none) :
    expandSpecChars vars ('$' :: '{' :: rest)
      = '$' :: '{' :: rest.takeWhile (fun c => c ≠ '}') ++ '}' :: expandSpecChars vars rest3 := by
  rw [expandSpecChars.eq_def]
  split
  · next heq => simp at heq
  · next restx heq =>
      injection heq with h1 h2
      injection h2 with h3 h4
      subst h4
      split
      · next rest3x heq2 =>
          rw [hdw] at heq2
          injection heq2 with h5 h6
          subst h6
          rw [if_pos hvalid, hv]
      · next x heq2 =>
          exact (heq2 rest3 hdw).elim
  · next cx restx hx heq =>
      injection heq with h1 h2
      injection h2 with h3 h4
      exact absurd h3.symm hx
  · next cx restx hx1 hx2 heq =>
      injection heq with h1 h2
      exact (hx1 rest h1.symm h2.symm).elim

/-- Spec-side scanner: a closed braced group whose content is not a valid
NAME does not match; the `$` is literal and the interior is rescanned. -/
theorem expandSpecChars_brace_invalid (vars : List (String × String)) (rest rest3 : List Char)
    (hdw : rest.dropWhile (fun c => c ≠ '}') = '}' :: rest3)
    (hvalid : validName (rest.takeWhile (fun c => c ≠ '}')) = false) :
    expandSpecChars vars ('$' :: '{' :: rest) = '$' :: expandSpecChars vars ('{' :: rest) := by
  rw [expandSpecChars.eq_def]
  split
  · next heq => simp at heq
  · next restx heq =>
      injection heq with h1 h2
      injection h2 with h3 h4
      subst h4
      split
      · next rest3x heq2 =>
          rw [if_neg (by rw [hvalid]; exact Bool.false_ne_true)]
      · next x heq2 =>
          exact (heq2 rest3 hdw).elim
  · next cx restx hx heq =>
      injection heq with h1 h2
      injection h2 with h3 h4
      exact absurd h3.symm hx
  · next cx restx hx1 hx2 heq =>
      injection heq with h1 h2
      exact (hx1 rest h1.symm h2.symm).elim

/-- Spec-side scanner: an unclosed braced candidate does not match. -/
theorem expandSpecChars_brace_noclose (vars : List (String × String)) (rest : List Char)
    (hdw : rest.dropWhile (fun c => c ≠ '}') = []) :
    expandSpecChars vars ('$' :: '{' :: rest) = '$' :: expandSpecChars vars ('{' :: rest) := by
  rw [expandSpecChars.eq_def]
  split
  · next heq => simp at heq
  · next restx heq =>
      injection heq with h1 h2
      injection h2 with h3 h4
      subst h4
      split
      · next rest3x heq2 =>
          rw [hdw] at heq2
          cases heq2
      · next x heq2 =>
          rfl
  · next cx restx hx heq =>
      injection heq with h1 h2
      injection h2 with h3 h4
      exact absurd h3.symm hx
  · next cx restx hx1 hx2 heq =>
      injection heq with h1 h2
      exact (hx1 rest h1.symm h2.symm).elim

/-- Spec-side scanner: bare `$NAME`, defined. -/
theorem expandSpecChars_bare_some (vars : List (String × String)) (c : Char) (rest : List Char)
    (v : String) (hid : isIdentStart c = true)
    (hv : getAssoc vars (String.mk (c :: rest.takeWhile isIdentChar)) = some v) :
    expandSpecChars vars ('$' :: c :: rest)
      = v.data ++ expandSpecChars vars (rest.dropWhile isIdentChar) := by
  have hnb : c ≠ '{' := by
    rintro rfl
    exact absurd hid (by decide)
  rw [expandSpecChars.eq_def]
  split <;> simp_all
  next cx restx hx heq =>
    exact absurd heq.2.symm (hx c rest heq.1.symm)

/-- Spec-side scanner: bare `$NAME`, undefined. -/
theorem expandSpecChars_bare_none (vars : List (String × String)) (c : Char) (rest : List Char)
    (hid : isIdentStart c = true)
    (hv : getAssoc vars (String.mk (c :: rest.takeWhile isIdentChar)) = none) :
    expandSpecChars vars ('$' :: c :: rest)
      = '$' :: c :: rest.takeWhile isIdentChar ++ expandSpecChars vars (rest.dropWhile isIdentChar) := by
  have hnb : c ≠ '{' := by
    rintro rfl
    exact absurd hid (by decide)
  rw [expandSpecChars.eq_def]
  split <;> simp_all
  next cx restx hx heq =>
    exact absurd heq.2.symm (hx c rest heq.1.symm)

/-- Spec-side scanner: `$` before a non-name character is literal. -/
theorem expandSpecChars_dollar_nonident (vars : List (String × String)) (c : Char)
    (rest : List Char) (hnid : isIdentStart c = false) (hnb : c ≠ '{') :
    expandSpecChars vars ('$' :: c :: rest) = '$' :: expandSpecChars vars (c :: rest) := by
  rw [expandSpecChars.eq_def]
  split <;> simp_all
  next cx restx hx heq =>
    exact absurd heq.2.symm (hx c rest heq.1.symm)
theorem bracesOk_cons (c : Char) (l : List Char) (h : bracesOk (c :: l) = true) :
    bracesOk l = true := by
  simp only [bracesOk, Bool.and_eq_true] at h
  exact h.2

theorem bracesOk_append (pre : List Char) :
    ∀ l : List Char, bracesOk (pre ++ l) = true → bracesOk l = true := by
  induction pre with
  | nil => intro l h; exact h
  | cons c rest ih =>
    intro l h
    exact ih l (bracesOk_cons c (rest ++ l) h)

theorem bracesOk_brace_elim (rest rest3 : List Char)
    (heq : rest.dropWhile (fun c => c ≠ '}') = '}' :: rest3)
    (h : bracesOk ('$' :: '{' :: rest) = true) :
    validName (rest.takeWhile (fun c => c ≠ '}')) = true ∧ bracesOk rest3 = true := by
  have hrest : bracesOk rest = true := bracesOk_cons _ _ (bracesOk_cons _ _ h)
  have hhead : bracesHeadOk '$' ('{' :: rest) = true := by
    simp only [bracesOk, Bool.and_eq_true] at h
    exact h.1
  have hvalid : validName (rest.takeWhile (fun c => c ≠ '}')) = true := by
    simp only [bracesHeadOk, if_pos rfl] at hhead
    rw [heq] at hhead
    simpa using hhead
  refine ⟨hvalid, ?_⟩
  have hsplit : rest.takeWhile (fun c => c ≠ '}') ++ '}' :: rest3 = rest := by
    rw [← heq]
    exact List.takeWhile_append_dropWhile _ _
  exact bracesOk_cons '}' rest3
    (bracesOk_append (rest.takeWhile (fun c => c ≠ '}')) ('}' :: rest3)
      (by rw [hsplit]; exact hrest))

theorem bracesOk_bare_elim (c : Char) (rest : List Char)
    (h : bracesOk ('$' :: c :: rest) = true) :
    bracesOk (rest.dropWhile isIdentChar) = true := by
  have h2 : bracesOk rest = true := bracesOk_cons _ _ (bracesOk_cons _ _ h)
  exact bracesOk_append (rest.takeWhile isIdentChar) (rest.dropWhile isIdentChar)
    (by rw [List.takeWhile_append_dropWhile _ _]; exact h2)

theorem dropWhile_head_not (p : Char → Bool) :
    ∀ (l : List Char) (c : Char) (tl : List Char), l.dropWhile p = c :: tl → p c = false := by
  intro l
  induction l with
  | nil => intro c tl h; cases h
  | cons a rest ih =>
    intro c tl h
    by_cases hp : p a = true
    · rw [List.dropWhile_cons, if_pos hp] at h
      exact ih c tl h
    · rw [List.dropWhile_cons, if_neg hp] at h
      injection h with h1 h2
      subst h1
      exact eq_false_of_ne_true hp

theorem dropWhile_nil_of_noclose (rest : List Char)
    (hno : ∀ rest3, rest.dropWhile (fun c => c ≠ '}') = '}' :: rest3 → False) :
    rest.dropWhile (fun c => c ≠ '}') = [] := by
  rcases hd : rest.dropWhile (fun c => c ≠ '}') with _ | ⟨c, tl⟩
  · rfl
  · exfalso
    have hc : c = '}' := by
      have := dropWhile_head_not (fun c => decide (c ≠ '}')) rest c tl hd
      simpa using this
    exact hno tl (by rw [hd, hc])

theorem expand_eq_spec_of_bracesOk (vars : List (String × String)) :
    ∀ l : List Char, bracesOk l = true →
    expandChars vars l = expandSpecChars vars l := by
  intro l
  induction l using expandChars.induct vars with
  | case1 =>
    intro _
    rw [expandChars_nil, expandSpecChars_nil]
  | case2 rest content rest3 heq hempty ihb =>
    intro h
    exfalso
    have hvalid := (bracesOk_brace_elim rest rest3 heq h).1
    have hce : rest.takeWhile (fun c => c ≠ '}') = [] := List.isEmpty_iff.mp hempty
    rw [hce] at hvalid
    exact absurd hvalid (by decide)
  | case3 rest content rest3 heq hne v hv ih =>
    intro h
    obtain ⟨hvalid, hok3⟩ := bracesOk_brace_elim rest rest3 heq h
    have htw : rest.takeWhile (fun c => c ≠ '}') ≠ [] :=
      fun hh => hne (List.isEmpty_iff.mpr hh)
    rw [expandChars_brace_some vars rest rest3 v heq htw hv,
      expandSpecChars_brace_some vars rest rest3 v heq hvalid hv,
      ih hok3]
  | case4 rest content rest3 heq hne hv ih =>
    intro h
    obtain ⟨hvalid, hok3⟩ := bracesOk_brace_elim rest rest3 heq h
    have htw : rest.takeWhile (fun c => c ≠ '}') ≠ [] :=
      fun hh => hne (List.isEmpty_iff.mpr hh)
    rw [expandChars_brace_none vars rest rest3 heq htw hv,
      expandSpecChars_brace_none vars rest rest3 heq hvalid hv,
      ih hok3]
  | case5 rest hno ihb =>
    intro h
    exfalso
    have hnil := dropWhile_nil_of_noclose rest (fun r3 hh => hno r3 hh)
    have hhead : bracesHeadOk '$' ('{' :: rest) = true := by
      simp only [bracesOk, Bool.and_eq_true] at h
      exact h.1
    simp only [bracesHeadOk, if_pos rfl] at hhead
    simp at hhead
  | case6 c rest hnb hid name after v hv ih =>
    intro h
    rw [expandChars_bare_some vars c rest v hid hv,
      expandSpecChars_bare_some vars c rest v hid hv,
      ih (bracesOk_bare_elim c rest h)]
  | case7 c rest hnb hid name after hv ih =>
    intro h
    rw [expandChars_bare_none vars c rest hid hv,
      expandSpecChars_bare_none vars c rest hid hv,
      ih (bracesOk_bare_elim c rest h)]
  | case8 c rest hnb hnid ih =>
    intro h
    have hnid' : isIdentStart c = false := eq_false_of_ne_true hnid
    have hnb' : c ≠ '{' := fun hh => hnb hh
    rw [expandChars_dollar_nonident vars c rest hnid' hnb',
      expandSpecChars_dollar_nonident vars c rest hnid' hnb',
      ih (bracesOk_cons _ _ h)]
  | case9 c rest hx1 hx2 ih =>
    intro h
    by_cases hc : c = '$'
    · subst hc
      rcases rest with _ | ⟨c1, r1⟩
      · rw [expandChars_dollar_end, expandSpecChars_dollar_end]
      · exact (hx2 c1 r1 rfl rfl).elim
    · rw [expandChars_cons_ne vars c rest hc, expandSpecChars_cons_ne vars c rest hc,
        ih (bracesOk_cons _ _ h)]

/-- C5 (corrected): on every text in which each braced candidate `$\x7b...`
wraps a valid variable name `[A-Za-z_][A-Za-z0-9_]*` closed by `\x7d`
(`bracesOk`), `Environment.expand` replaces every `$NAME` and `$\x7bNAME\x7d`
occurrence with the variable's value when defined, leaves it literal when
undefined, and alters nothing else — i.e. it agrees with the spec's
replacement function `expandSpec`.  The original claim is wrong on texts
with ill-formed braces: the code's `$\x7b[^\x7d]*\x7d` alternative consumes
arbitrary non-`\x7d` content, so `$NAME` occurrences inside it are left
unexpanded (see the counterexample). -/
theorem c5_expansion_refinement (env : Environment) (text : String)
    (h : bracesOk text.data = true) :
    Environment.expand env text = expandSpec env text := by
  unfold Environment.expand expandSpec
  rw [expand_eq_spec_of_bracesOk env.variables text.data h]

/-- C5 witness: a text exercising both a defined braced occurrence and a
defined bare occurrence. -/
theorem c5_expansion_refinement_witness :
    bracesOk ("echo $\x7bHOME\x7d and $HOME").data = true ∧
    Environment.expand ⟨[("HOME", "/root")], [], []⟩ "echo $\x7bHOME\x7d and $HOME"
      = expandSpec ⟨[("HOME", "/root")], [], []⟩ "echo $\x7bHOME\x7d and $HOME" :=
  ⟨by decide,
   c5_expansion_refinement ⟨[("HOME", "/root")], [], []⟩ "echo $\x7bHOME\x7d and $HOME"
     (by decide)⟩

/-- C5 counterexample to the original claim: with `HOME=/root`, the text
`$\x7bx$HOME\x7d` contains the occurrence `$HOME` of a defined variable, yet
`Environment.expand` leaves the text unchanged (the braced alternative of the
regex consumes `x$HOME` whole and the lookup of that name fails), while the
spec's reading expands the inner `$HOME`. -/
theorem c5_claim_counterexample :
    Environment.expand ⟨[("HOME", "/root")], [], []⟩ "$\x7bx$HOME\x7d"
      = "$\x7bx$HOME\x7d" ∧
    expandSpec ⟨[("HOME", "/root")], [], []⟩ "$\x7bx$HOME\x7d"
      = "$\x7bx/root\x7d" ∧
    ("$\x7bx$HOME\x7d" : String) ≠ "$\x7bx/root\x7d" := by
  refine ⟨?_, ?_, by decide⟩
  · have h1 : ("$\x7bx$HOME\x7d" : String).data
        = '$' :: '{' :: ['x', '$', 'H', 'O', 'M', 'E', '}'] := rfl
    rw [Environment.expand, h1,
      expandChars_brace_none [("HOME", "/root")] ['x', '$', 'H', 'O', 'M', 'E', '}'] []
        rfl (by decide) rfl,
      expandChars_nil]
    rfl
  · have h1 : ("$\x7bx$HOME\x7d" : String).data
        = '$' :: '{' :: ['x', '$', 'H', 'O', 'M', 'E', '}'] := rfl
    rw [expandSpec, h1,
      expandSpecChars_brace_invalid [("HOME", "/root")] ['x', '$', 'H', 'O', 'M', 'E', '}'] []
        rfl (by decide),
      expandSpecChars_cons_ne [("HOME", "/root")] '{' ['x', '$', 'H', 'O', 'M', 'E', '}']
        (by decide),
      expandSpecChars_cons_ne [("HOME", "/root")] 'x' ['$', 'H', 'O', 'M', 'E', '}']
        (by decide),
      expandSpecChars_bare_some [("HOME", "/root")] 'H' ['O', 'M', 'E', '}'] "/root"
        (by decide) rfl]
    rw [show List.dropWhile isIdentChar ['O', 'M', 'E', '}'] = ['}'] from rfl,
      expandSpecChars_cons_ne [("HOME", "/root")] '}' [] (by decide),
      expandSpecChars_nil]
    rfl

-- ============ CLAIM C6 ============

/-- `" ".join` of a single string is that string. -/
theorem intercalate_single (sep x : String) : String.intercalate sep [x] = x := rfl

/-- Texts without `$` are fixed points of the expansion scanner. -/
theorem expandChars_no_dollar (vars : List (String × String)) :
    ∀ l : List Char, (∀ c ∈ l, c ≠ '$') → expandChars vars l = l := by
  intro l
  induction l with
  | nil => intro _; exact expandChars_nil vars
  | cons c rest ih =>
    intro h
    rw [expandChars_cons_ne vars c rest (h c (List.mem_cons_self _ _)),
      ih (fun x hx => h x (List.mem_cons_of_mem _ hx))]

/-- Texts without `$` are fixed points of `Environment.expand`. -/
theorem expand_no_dollar (env : Environment) (s : String)
    (h : ∀ c ∈ s.data, c ≠ '$') : env.expand s = s := by
  rcases s with ⟨l⟩
  show String.mk (expandChars env.variables l) = String.mk l
  rw [expandChars_no_dollar env.variables l h]

/-- Setting one key does not change the lookup of a different key. -/
theorem getAssoc_setAssoc_ne (l : List (String × String)) (a b v : String) (h : b ≠ a) :
    getAssoc (setAssoc l a v) b = getAssoc l b := by
  induction l with
  | nil =>
    simp only [setAssoc, getAssoc, if_neg (Ne.symm h)]
  | cons p rest ih =>
    rcases p with ⟨k, w0⟩
    simp only [setAssoc]
    by_cases hk : k = a
    · subst hk
      rw [if_pos rfl]
      simp only [getAssoc]
      rw [if_neg (Ne.symm h), if_neg (Ne.symm h)]
    · rw [if_neg hk]
      simp only [getAssoc]
      by_cases hb : k = b
      · rw [if_pos hb, if_pos hb]
      · rw [if_neg hb, if_neg hb, ih]

/-- Token-walk step: a token that is not a redirection operator and not a
final `&`, whose expansion has no leading `~` and no glob character, is
appended to the argument list as its expansion. -/
theorem walkTokens_cons_plain (env : Environment) (w : World) (tok : String)
    (ts : List String) (c : Command) (e : String)
    (h1 : tok ≠ "<") (h2 : tok ≠ ">") (h3 : tok ≠ ">>")
    (h4 : ¬(tok = "&" ∧ ts = []))
    (hx : env.expand tok = e)
    (hnt : ¬ e.data.take 1 = ['~'])
    (hg : containsGlobChar e = false) :
    Parser.walkTokens env w (tok :: ts) c
      = Parser.walkTokens env w ts { c with args := c.args ++ [e] } := by
  rw [Parser.walkTokens.eq_def]
  split <;> simp_all [Environment.expand_tilde]

/-- The token walk on an exhausted token list returns the command. -/
theorem walkTokens_nil (env : Environment) (w : World) (c : Command) :
    Parser.walkTokens env w [] c = c := by
  simp [Parser.walkTokens]

/-- `Parser._parse_command` on a two-token command line of plain tokens whose
head expansion is not aliased. -/
theorem parse_cmd_plain2 (text : String) (env : Environment) (w : World)
    (t0 t1 e0 e1 : String)
    (hshlex : shlexSplit text = .ok [t0, t1])
    (h01 : t0 ≠ "<") (h02 : t0 ≠ ">") (h03 : t0 ≠ ">>")
    (h11 : t1 ≠ "<") (h12 : t1 ≠ ">") (h13 : t1 ≠ ">>") (h14 : t1 ≠ "&")
    (hx0 : env.expand t0 = e0) (hx1 : env.expand t1 = e1)
    (hnt0 : ¬ e0.data.take 1 = ['~']) (hnt1 : ¬ e1.data.take 1 = ['~'])
    (hg0 : containsGlobChar e0 = false) (hg1 : containsGlobChar e1 = false)
    (halias : getAssoc env.aliases e0 = none) :
    Parser._parse_command text env w = .ok (mkCmd [e0, e1]) := by
  rw [Parser._parse_command, hshlex]
  simp only [Bind.bind, Except.bind]
  rw [walkTokens_cons_plain env w t0 [t1] (mkCmd []) e0 h01 h02 h03
      (by simp) hx0 hnt0 hg0,
    walkTokens_cons_plain env w t1 [] _ e1 h11 h12 h13
      (fun hh => h14 hh.1) hx1 hnt1 hg1,
    walkTokens_nil]
  simp [mkCmd, halias]
  rfl

/-- `Parser.parse` on a line that is a single statement and a single
pipeline stage. -/
theorem parse_line_single (line : String) (env : Environment) (w : World) (c : Command)
    (hsem : Parser._split_by_semicolon line = [line])
    (hstrip : pyStrip line = line)
    (hne : ¬(line = ""))
    (hpipe : Parser._split_by_pipe line = [line])
    (hcmd : Parser._parse_command line env w = .ok c) :
    Parser.parse line env w = .ok [⟨[c]⟩] := by
  rw [Parser.parse, hsem]
  simp only [Parser.parseStmts, hstrip]
  rw [if_neg hne]
  rw [Parser._parse_pipeline, hpipe]
  simp only [List.mapM, List.mapM.loop, hcmd, Bind.bind, Except.bind, pure, Except.pure]
  simp [Parser.parseStmts]

/-- Executing a parsed `echo X` whose argument is an expansion fixed point
prints that argument. -/
theorem execute_echo (fuel : Nat) (st : ExecState) (w : World) (x : String)
    (hx : st.env.expand x = x) :
    Executor.execute_pipeline (fuel + 1) ⟨[mkCmd ["echo", x]]⟩ st w
      = (.ok 0, st.addOut x) := by
  show (Except.ok 0, st.addOut (st.env.expand (String.intercalate " " [x])))
    = ((.ok 0 : Except PyExc Int), st.addOut x)
  rw [intercalate_single, hx]

/-- Executing a parsed `export FOO=bar` sets the variable. -/
theorem execute_export_foobar (fuel : Nat) (st : ExecState) (w : World) :
    Executor.execute_pipeline (fuel + 1) ⟨[mkCmd ["export", "FOO=bar"]]⟩ st w
      = (.ok 0, st.setVar "FOO" "bar") := rfl

/-- One shell-loop iteration on a nonblank line that parses to a single
one-command pipeline whose execution succeeds: history is recorded, the
command runs, and `"?"` is set to the status. -/
theorem lineBody_single (fuel : Nat) (prev : Int) (st : ExecState) (w : World)
    (line : String) (c : Command) (s : Int) (st2 : ExecState)
    (hne : ¬(pyStrip line = ""))
    (hparse : Parser.parse line (st.addHistory line).env w = .ok [⟨[c]⟩])
    (hexec : Executor.execute_pipeline (fuel + 1) ⟨[c]⟩ (st.addHistory line) w
      = (.ok s, st2)) :
    Shell.lineBody (fuel + 1) line prev st w = .cont s (st2.setVar "?" (pyStrInt s)) := by
  rw [Shell.lineBody, if_neg hne]
  simp only [hparse]
  rw [Shell.lineBodyAux]
  simp only [Shell.runPipelines, hexec]

/-- `expand` on `$FOO` when `FOO` holds `bar`. -/
theorem expand_dollar_FOO (env : Environment)
    (hv : getAssoc env.variables "FOO" = some "bar") :
    env.expand "$FOO" = "bar" := by
  show String.mk (expandChars env.variables ('$' :: 'F' :: ['O', 'O'])) = "bar"
  rw [expandChars_bare_some env.variables 'F' ['O', 'O'] "bar" (by decide)
    (by rw [show String.mk ('F' :: List.takeWhile isIdentChar ['O', 'O']) = "FOO" from rfl]
        exact hv)]
  rw [show List.dropWhile isIdentChar ['O', 'O'] = [] from rfl, expandChars_nil]
  rfl

/-- `expand` on `$\x7bFOO\x7d` when `FOO` holds `bar`. -/
theorem expand_braced_FOO (env : Environment)
    (hv : getAssoc env.variables "FOO" = some "bar") :
    env.expand "$\x7bFOO\x7d" = "bar" := by
  show String.mk (expandChars env.variables ('$' :: '{' :: ['F', 'O', 'O', '}'])) = "bar"
  rw [expandChars_brace_some env.variables ['F', 'O', 'O', '}'] [] "bar" rfl (by decide)
    (by rw [show String.mk (List.takeWhile (fun c => c ≠ '}') ['F', 'O', 'O', '}'])
          = "FOO" from rfl]
        exact hv)]
  rw [expandChars_nil]
  rfl

/-- `expand` on `$UNDEFINED_XYZ` when the variable is undefined: the text is
left literally unchanged. -/
theorem expand_dollar_undef (env : Environment)
    (hv : getAssoc env.variables "UNDEFINED_XYZ" = none) :
    env.expand "$UNDEFINED_XYZ" = "$UNDEFINED_XYZ" := by
  show String.mk (expandChars env.variables
    ('$' :: 'U' :: "NDEFINED_XYZ".data)) = "$UNDEFINED_XYZ"
  rw [expandChars_bare_none env.variables 'U' "NDEFINED_XYZ".data (by decide)
    (by rw [show String.mk ('U' :: List.takeWhile isIdentChar "NDEFINED_XYZ".data)
          = "UNDEFINED_XYZ" from rfl]
        exact hv)]
  rw [show List.dropWhile isIdentChar "NDEFINED_XYZ".data = [] from rfl, expandChars_nil]
  rfl

/-- The shell-loop iteration for the line `echo $FOO` when `FOO` holds `bar`
and `echo` is not aliased: it prints `bar`. -/
theorem lineBody_echo_FOO (fuel : Nat) (prev : Int) (st : ExecState) (w : World)
    (ha : getAssoc st.env.aliases "echo" = none)
    (hv : getAssoc st.env.variables "FOO" = some "bar") :
    Shell.lineBody (fuel + 1) "echo $FOO" prev st w
      = .cont 0 (((st.addHistory "echo $FOO").addOut "bar").setVar "?" "0") := by
  rw [show ("0" : String) = pyStrInt 0 from rfl]
  apply lineBody_single
  · decide
  · exact parse_line_single _ _ _ _ rfl rfl (by decide) rfl
      (parse_cmd_plain2 _ _ _ "echo" "$FOO" "echo" "bar" rfl
        (by decide) (by decide) (by decide) (by decide) (by decide) (by decide) (by decide)
        (expand_no_dollar _ _ (by decide)) (expand_dollar_FOO _ hv)
        (by decide) (by decide) rfl rfl ha)
  · exact execute_echo fuel _ w "bar" (expand_no_dollar _ _ (by decide))

/-- The shell-loop iteration for the line `echo $\x7bFOO\x7d` when `FOO`
holds `bar` and `echo` is not aliased: it prints `bar`. -/
theorem lineBody_echo_braced_FOO (fuel : Nat) (prev : Int) (st : ExecState) (w : World)
    (ha : getAssoc st.env.aliases "echo" = none)
    (hv : getAssoc st.env.variables "FOO" = some "bar") :
    Shell.lineBody (fuel + 1) "echo $\x7bFOO\x7d" prev st w
      = .cont 0 (((st.addHistory "echo $\x7bFOO\x7d").addOut "bar").setVar "?" "0") := by
  rw [show ("0" : String) = pyStrInt 0 from rfl]
  apply lineBody_single
  · decide
  · exact parse_line_single _ _ _ _ rfl rfl (by decide) rfl
      (parse_cmd_plain2 _ _ _ "echo" "$\x7bFOO\x7d" "echo" "bar" rfl
        (by decide) (by decide) (by decide) (by decide) (by decide) (by decide) (by decide)
        (expand_no_dollar _ _ (by decide)) (expand_braced_FOO _ hv)
        (by decide) (by decide) rfl rfl ha)
  · exact execute_echo fuel _ w "bar" (expand_no_dollar _ _ (by decide))

/-- The shell-loop iteration for the line `echo $UNDEFINED_XYZ` when the
variable is undefined and `echo` is not aliased: it prints the literal text
`$UNDEFINED_XYZ`. -/
theorem lineBody_echo_undef (fuel : Nat) (prev : Int) (st : ExecState) (w : World)
    (ha : getAssoc st.env.aliases "echo" = none)
    (hv : getAssoc st.env.variables "UNDEFINED_XYZ" = none) :
    Shell.lineBody (fuel + 1) "echo $UNDEFINED_XYZ" prev st w
      = .cont 0 (((st.addHistory "echo $UNDEFINED_XYZ").addOut
          "$UNDEFINED_XYZ").setVar "?" "0") := by
  rw [show ("0" : String) = pyStrInt 0 from rfl]
  apply lineBody_single
  · decide
  · exact parse_line_single _ _ _ _ rfl rfl (by decide) rfl
      (parse_cmd_plain2 _ _ _ "echo" "$UNDEFINED_XYZ" "echo" "$UNDEFINED_XYZ" rfl
        (by decide) (by decide) (by decide) (by decide) (by decide) (by decide) (by decide)
        (expand_no_dollar _ _ (by decide)) (expand_dollar_undef _ hv)
        (by decide) (by decide) rfl rfl ha)
  · exact execute_echo fuel _ w "$UNDEFINED_XYZ" (expand_dollar_undef _ hv)

/-- The shell-loop iteration for the line `export FOO=bar` when `export` is
not aliased: it sets `FOO` to `bar`. -/
theorem lineBody_export_FOO (fuel : Nat) (prev : Int) (st : ExecState) (w : World)
    (ha : getAssoc st.env.aliases "export" = none) :
    Shell.lineBody (fuel + 1) "export FOO=bar" prev st w
      = .cont 0 (((st.addHistory "export FOO=bar").setVar "FOO" "bar").setVar "?" "0") := by
  rw [show ("0" : String) = pyStrInt 0 from rfl]
  apply lineBody_single
  · decide
  · exact parse_line_single _ _ _ _ rfl rfl (by decide) rfl
      (parse_cmd_plain2 _ _ _ "export" "FOO=bar" "export" "FOO=bar" rfl
        (by decide) (by decide) (by decide) (by decide) (by decide) (by decide) (by decide)
        (expand_no_dollar _ _ (by decide)) (expand_no_dollar _ _ (by decide))
        (by decide) (by decide) rfl rfl ha)
  · exact execute_export_foobar fuel _ w

/-- C6 (corrected): in any state where `echo` and `export` are not aliased
and `UNDEFINED_XYZ` is undefined, the line `export FOO=bar` sets `FOO` to
`bar`, after which the lines `echo $FOO` and `echo $\x7bFOO\x7d` both print
`bar`; but the line `echo $UNDEFINED_XYZ` prints the literal text
`$UNDEFINED_XYZ`, not the empty string claimed by the spec: an undefined
variable reference is left unchanged by `Environment.expand`. -/
theorem c6_echo_variable_expansion (fuel : Nat) (prev prev2 : Int)
    (st : ExecState) (w : World)
    (hae : getAssoc st.env.aliases "echo" = none)
    (hax : getAssoc st.env.aliases "export" = none)
    (hu : getAssoc st.env.variables "UNDEFINED_XYZ" = none) :
    Shell.lineBody (fuel + 1) "export FOO=bar" prev st w
      = .cont 0 (((st.addHistory "export FOO=bar").setVar "FOO" "bar").setVar "?" "0") ∧
    (∀ prev2' st1,
      st1 = ((st.addHistory "export FOO=bar").setVar "FOO" "bar").setVar "?" "0" →
      Shell.lineBody (fuel + 1) "echo $FOO" prev2' st1 w
        = .cont 0 (((st1.addHistory "echo $FOO").addOut "bar").setVar "?" "0") ∧
      Shell.lineBody (fuel + 1) "echo $\x7bFOO\x7d" prev2' st1 w
        = .cont 0 (((st1.addHistory "echo $\x7bFOO\x7d").addOut "bar").setVar "?" "0")) ∧
    Shell.lineBody (fuel + 1) "echo $UNDEFINED_XYZ" prev2 st w
      = .cont 0 (((st.addHistory "echo $UNDEFINED_XYZ").addOut
          "$UNDEFINED_XYZ").setVar "?" "0") := by
  refine ⟨lineBody_export_FOO fuel prev st w hax, ?_,
    lineBody_echo_undef fuel prev2 st w hae hu⟩
  intro prev2' st1 hst1
  subst hst1
  have hv : getAssoc (((st.addHistory "export FOO=bar").setVar "FOO"
      "bar").setVar "?" "0").env.variables "FOO" = some "bar" := by
    show getAssoc (setAssoc (setAssoc ((st.addHistory "export FOO=bar").env.variables)
      "FOO" "bar") "?" "0") "FOO" = some "bar"
    rw [getAssoc_setAssoc_ne _ _ _ _ (by decide)]
    exact getAssoc_setAssoc _ _ _
  exact ⟨lineBody_echo_FOO fuel prev2' _ w hae hv,
    lineBody_echo_braced_FOO fuel prev2' _ w hae hv⟩

/-- C6 witness: from the initial fixture state, `export FOO=bar` then
`echo $FOO` prints `bar`, and `echo $UNDEFINED_XYZ` prints the literal
text. -/
theorem c6_echo_variable_expansion_witness :
    Shell.lineBody 2 "export FOO=bar" 0 baseSt stdWorld
      = .cont 0 (((baseSt.addHistory "export FOO=bar").setVar "FOO" "bar").setVar "?" "0") ∧
    Shell.lineBody 2 "echo $FOO" 0
        (((baseSt.addHistory "export FOO=bar").setVar "FOO" "bar").setVar "?" "0") stdWorld
      = .cont 0 ((((((baseSt.addHistory "export FOO=bar").setVar "FOO" "bar").setVar "?"
            "0").addHistory "echo $FOO").addOut "bar").setVar "?" "0") ∧
    Shell.lineBody 2 "echo $UNDEFINED_XYZ" 0 baseSt stdWorld
      = .cont 0 (((baseSt.addHistory "echo $UNDEFINED_XYZ").addOut
          "$UNDEFINED_XYZ").setVar "?" "0") :=
  ⟨(c6_echo_variable_expansion 1 0 0 baseSt stdWorld rfl rfl rfl).1,
   ((c6_echo_variable_expansion 1 0 0 baseSt stdWorld rfl rfl rfl).2.1 0 _ rfl).1,
   (c6_echo_variable_expansion 1 0 0 baseSt stdWorld rfl rfl rfl).2.2⟩

/-- C6 counterexample to the original claim: in the initial fixture state the
line `echo $UNDEFINED_XYZ` prints the literal text `$UNDEFINED_XYZ`, which is
not the empty string. -/
theorem c6_claim_counterexample :
    Shell.lineBody 2 "echo $UNDEFINED_XYZ" 0 baseSt stdWorld
      = .cont 0 (((baseSt.addHistory "echo $UNDEFINED_XYZ").addOut
          "$UNDEFINED_XYZ").setVar "?" "0") ∧
    (((baseSt.addHistory "echo $UNDEFINED_XYZ").addOut "$UNDEFINED_XYZ").setVar "?"
        "0").outLines = ["$UNDEFINED_XYZ"] ∧
    (["$UNDEFINED_XYZ"] : List String) ≠ [""] :=
  ⟨lineBody_echo_undef 1 0 baseSt stdWorld rfl rfl, rfl, by decide⟩
